import Mathlib

/-!
# Verification of the message-mirroring engine

A shallow embedding, in Lean 4, of the core functions of the repository
(conversation segmentation and reconciliation, message/reaction ingestion,
GUID and phone-number normalisation, timestamp decoding, extractor error
handling and watcher watermarks), together with proofs settling the frozen
claims about the natural-language specification.

Conventions of the embedding:
* Python strings are modelled as `List Char` (`Str`).
* Machine integers are `Int`; SQL `NULL` and Python `None` are `Option`.
* Timestamps are exact rationals (seconds since the Apple epoch,
  2001-01-01T00:00:00Z); Python `float` rounding is idealised away, which is
  harmless for every claim settled here (all divergences found are by integer
  factors, far outside float error).
* Unicode character classes used by Python (`\d` of `re`, `str.isprintable`,
  `str.strip`) are modelled on their ASCII fragment; no claim depends on the
  non-ASCII part of these classes.
-/

abbrev Str := List Char

/-- ASCII fragment of the character class matched by Python's `\d`
(`local_utils.RE_NON_DIGIT` complement). -/
def pyIsDigit (c : Char) : Bool := c.isDigit

/-- Python `str.lower`, ASCII fragment. -/
def pyLower (s : Str) : Str := s.map Char.toLower

/-- ASCII fragment of the whitespace stripped by Python `str.strip`. -/
def pyIsSpace (c : Char) : Bool :=
  c = ' ' ∨ c = '\n' ∨ c = '\t' ∨ c = '\r' ∨ c = '\x0b' ∨ c = '\x0c'

/-- Python `str.strip`. -/
def pyStrip (s : Str) : Str :=
  ((s.dropWhile pyIsSpace).reverse.dropWhile pyIsSpace).reverse

/-- `local_utils.normalize_phone_number`: remove non-digits; if the result is
exactly 11 digits and starts with `'1'`, drop that leading digit. -/
def normalize_phone_number (phone_number : Str) : Str :=
  if phone_number = [] then []
  else
    let digits := phone_number.filter pyIsDigit
    if digits.length = 11 ∧ digits.head? = some '1' then digits.tail
    else digits

/-- `etl_messages._clean_guid` on a present string: if it contains `'/'`,
the text after the first `'/'` (Python `split(sep, 1)[-1]`); else if it
contains `':'`, the text after the first `':'`; else unchanged. -/
def _clean_guid (guid : Str) : Str :=
  if guid = [] then guid
  else if '/' ∈ guid then afterFirst '/' guid
  else if ':' ∈ guid then afterFirst ':' guid
  else guid
where
  /-- Text after the first occurrence of `sep` (Python `s.split(sep, 1)[-1]`
  when `sep ∈ s`). -/
  afterFirst (sep : Char) : Str → Str
    | [] => []
    | c :: cs => if c = sep then cs else afterFirst sep cs

/-- `live_sync.extractors.to_nanos`: normalise an Apple-epoch timestamp to
nanoseconds, classifying by magnitude. -/
def to_nanos (raw : Int) : Int :=
  if raw > 10 ^ 16 then raw
  else if raw > 10 ^ 13 then raw * 1000
  else if raw > 10 ^ 10 then raw * 1000000
  else raw * 1000000000

/-- `etl_messages._convert_apple_timestamp` on an integer input, returning the
number of seconds (exact rational) that the decoded UTC instant lies after the
Apple epoch; the code returns `epoch + timedelta(seconds = ts_sec)`. -/
def _convert_apple_timestamp (apple_timestamp : Option Int) : Option ℚ :=
  match apple_timestamp with
  | none => none
  | some ts =>
    if ts ≤ 10 ^ 10 then some (ts : ℚ)
    else if ts ≤ 10 ^ 16 then some ((ts : ℚ) / 1000000)
    else some ((ts : ℚ) / 1000000000)

/-! ## Generic list helpers shared by the embeddings

Association lists model Python dicts (first-occurrence key lookup, in-place
update of an existing key); `isort` models Python's `sorted` for the key types
used by the code. -/

/-- Lookup in an association list (Python `dict.get`). -/
def alistGet? {α β : Type} [DecidableEq α] (xs : List (α × β)) (k : α) :
    Option β :=
  (xs.find? (fun p => p.1 = k)).map (fun p => p.2)

/-- Update-or-append in an association list (Python `dict.__setitem__`). -/
def alistSet {α β : Type} [DecidableEq α] : List (α × β) → α → β → List (α × β)
  | [], k, v => [(k, v)]
  | (k', v') :: t, k, v =>
    if k' = k then (k, v) :: t else (k', v') :: alistSet t k v

/-- Rebuild an association list from pairs, last occurrence of a key winning
(Python `dict(...)`-style accumulation). -/
def alistOfPairs {α β : Type} [DecidableEq α] (ps : List (α × β)) :
    List (α × β) :=
  ps.foldl (fun acc p => alistSet acc p.1 p.2) []

/-- Insert into a list sorted by `le`. -/
def insertSorted {α : Type} (le : α → α → Bool) (x : α) : List α → List α
  | [] => [x]
  | y :: ys => if le x y then x :: y :: ys else y :: insertSorted le x ys

/-- Insertion sort, modelling Python `sorted` with key order `le`. -/
def isort {α : Type} (le : α → α → Bool) (l : List α) : List α :=
  l.foldr (insertSorted le) []

/-- Integer order used when sorting message-id lists. -/
def intLe (a b : Int) : Bool := a ≤ b

/-! ## Conversation engine: segmentation (`etl_conversations`)

A message as the segmentation and the two reconciliation paths see it:
row id, chat id, nullable sender id, and a timestamp in (fractional) seconds
since the Apple epoch. -/

structure RawMsg where
  id : Int
  chat_id : Int
  sender_id : Option Int
  ts : ℚ
deriving DecidableEq, Repr

/-- A closed conversation block emitted by `_split_into_conversations`. -/
structure ConvBlock where
  messages : List RawMsg
  start_time : ℚ
  end_time : ℚ
  chat_id : Int
deriving DecidableEq, Repr

/-- The loop of `_split_into_conversations` after the first message has opened
the first block: `convs` are the closed blocks, `cur` the open block,
`start_time`/`last_time` its first and most recent timestamps, `chat0` the
first input message's chat id (used only for the final flush, as in the
source). -/
def _split_loop (gap : ℚ) (chat0 : Int) (convs : List ConvBlock)
    (cur : List RawMsg) (start_time last_time : ℚ) :
    List RawMsg → List ConvBlock
  | [] =>
    if cur ≠ [] then convs ++ [⟨cur, start_time, last_time, chat0⟩] else convs
  | m :: rest =>
    if m.ts - last_time > gap then
      _split_loop gap chat0
        (if cur ≠ [] then convs ++ [⟨cur, start_time, last_time, m.chat_id⟩]
         else convs)
        [m] m.ts m.ts rest
    else
      _split_loop gap chat0 convs (cur ++ [m]) start_time m.ts rest

/-- `etl_conversations._split_into_conversations`: split a (sorted) message
list into blocks at gaps strictly exceeding `gap` seconds. -/
def _split_into_conversations (messages : List RawMsg) (gap : ℚ) :
    List ConvBlock :=
  match messages with
  | [] => []
  | m :: rest => _split_loop gap m.chat_id [] [m] m.ts m.ts rest

/-- A transformed conversation dict as produced by `transform_conversations`. -/
structure TransConv where
  chat_id : Int
  initiator_id : Option Int
  start_time : ℚ
  end_time : ℚ
  message_count : Int
  participant_ids : List Int
  message_ids : List Int
  gap_threshold : ℚ
deriving DecidableEq, Repr

/-- The record built by `transform_conversations` from a block whose
initiator search succeeded (Python's `set` of participants is modelled as
first-occurrence deduplication). -/
def mkTransConv (gap_threshold : ℚ) (conv : ConvBlock) (im : RawMsg) :
    TransConv :=
  { chat_id := conv.chat_id
    initiator_id := im.sender_id
    start_time := conv.start_time
    end_time := conv.end_time
    message_count := conv.messages.length
    participant_ids := (conv.messages.filterMap (fun m => m.sender_id)).dedup
    message_ids := conv.messages.map (fun m => m.id)
    gap_threshold := gap_threshold }

/-- The body of the per-block loop of `transform_conversations`: skip empty
blocks and blocks without a sender-bearing message; the initiator is the
first message with a sender. -/
def transformBlock (gap_threshold : ℚ) (conv : ConvBlock) : Option TransConv :=
  if conv.messages = [] then none
  else
    match conv.messages.find? (fun m => m.sender_id.isSome) with
    | none => none
    | some im =>
      if (conv.messages.filterMap (fun m => m.sender_id)).dedup = [] then none
      else some (mkTransConv gap_threshold conv im)

/-- `etl_conversations.transform_conversations`: keep only blocks that are
nonempty and contain a sender-bearing message. -/
def transform_conversations (raw_conversations : List ConvBlock)
    (gap_threshold : ℚ) : List TransConv :=
  raw_conversations.filterMap (transformBlock gap_threshold)

/-! ## Conversation engine: live (append-or-create) reconciliation -/

/-- The in-memory "most recent conversation" record kept per chat by
`load_conversations`. -/
structure LastConv where
  id : Int
  end_time : ℚ
  message_count : Int
deriving DecidableEq, Repr

/-- A row of the `conversations` table. -/
structure ConvTableRow where
  id : Int
  chat_id : Int
  initiator_id : Option Int
  start_time : ℚ
  end_time : ℚ
  message_count : Int
  gap_threshold : ℚ
deriving DecidableEq, Repr

/-- The state `load_conversations` reads and writes: the `conversations`
table, the `conversation_id` column of `messages` (by message id), the
in-memory per-chat "last conversation" map, the autoincrement cursor and the
two counters. -/
structure LoadState where
  convRows : List ConvTableRow
  msgConv : Int → Option Int
  lastByChat : List (Int × LastConv)
  nextConvId : Int
  imported : Int
  updated : Int

/-- The `can_append` test of `load_conversations`. -/
def can_append (st : LoadState) (conv : TransConv) : Bool :=
  match alistGet? st.lastByChat conv.chat_id with
  | none => false
  | some last =>
    decide (0 ≤ conv.start_time - last.end_time ∧
            conv.start_time - last.end_time ≤ conv.gap_threshold)

/-- The body of the per-conversation loop of `load_conversations`. -/
def load_step (st : LoadState) (conv : TransConv) : LoadState :=
  match alistGet? st.lastByChat conv.chat_id with
  | some last =>
    if 0 ≤ conv.start_time - last.end_time ∧
       conv.start_time - last.end_time ≤ conv.gap_threshold then
      { convRows := st.convRows.map (fun r =>
          if r.id = last.id then
            { r with end_time := conv.end_time,
                     message_count := r.message_count + conv.message_count }
          else r)
        msgConv := fun m =>
          if m ∈ conv.message_ids then some last.id else st.msgConv m
        lastByChat := alistSet st.lastByChat conv.chat_id
          { id := last.id, end_time := conv.end_time,
            message_count := last.message_count + conv.message_count }
        nextConvId := st.nextConvId
        imported := st.imported
        updated := st.updated + 1 }
    else load_create st conv
  | none => load_create st conv
where
  /-- The create branch: insert a fresh conversation row (with the segment's
  fields, including its gap threshold) and attach the segment's messages. -/
  load_create (st : LoadState) (conv : TransConv) : LoadState :=
    { convRows := st.convRows ++
        [{ id := st.nextConvId, chat_id := conv.chat_id,
           initiator_id := conv.initiator_id,
           start_time := conv.start_time, end_time := conv.end_time,
           message_count := conv.message_count,
           gap_threshold := conv.gap_threshold }]
      msgConv := fun m =>
        if m ∈ conv.message_ids then some st.nextConvId else st.msgConv m
      lastByChat := alistSet st.lastByChat conv.chat_id
        { id := st.nextConvId, end_time := conv.end_time,
          message_count := conv.message_count }
      nextConvId := st.nextConvId + 1
      imported := st.imported + 1
      updated := st.updated }

/-- `etl_conversations.load_conversations` over a prepared initial state
(whose `lastByChat` holds, per chat, the most recent existing conversation by
end time, as fetched by the code); returns the final state and the
`(imported, updated)` counters. -/
def load_conversations (st0 : LoadState) (conversations : List TransConv) :
    LoadState × Int × Int :=
  if conversations = [] then (st0, 0, 0)
  else
    let stF := conversations.foldl load_step
      { st0 with imported := 0, updated := 0 }
    (stF, stF.imported, stF.updated)

/-! ## Conversation engine: backup (fresh-split-and-compare) reconciliation -/

/-- A row of the `messages` table as the backup reconciliation sees it. -/
structure BkMsgRow where
  id : Int
  chat_id : Int
  ts : ℚ
  sender_id : Option Int
  conversation_id : Option Int
deriving DecidableEq, Repr

/-- The tables touched by `_replace_or_reuse_intervals`. -/
structure BkState where
  convs : List ConvTableRow
  msgs : List BkMsgRow
  nextConvId : Int
deriving Repr

/-- Message ids of a fresh block, sorted (Python `sorted`). -/
def blockMsgIds (block : ConvBlock) : List Int :=
  isort intLe (block.messages.map (fun m => m.id))

/-- The `conv_id → sorted message ids` map built once at the start of
`_replace_or_reuse_intervals` (in ascending `start_time` order of the
existing conversations). -/
def conv_msg_map (msgs : List BkMsgRow) (convIds : List Int) :
    List (Int × List Int) :=
  convIds.map (fun cid =>
    (cid, isort intLe
      ((msgs.filter (fun m => m.conversation_id = some cid)).map (fun m => m.id))))

/-- The inclusive interval-overlap test of the backup reconciliation:
`existing.start ≤ block.end ∧ existing.end ≥ block.start`, restricted to the
chat. -/
def overlapsBlock (chat_id : Int) (block : ConvBlock) (c : ConvTableRow) :
    Bool :=
  c.chat_id = chat_id ∧ c.start_time ≤ block.end_time ∧
    c.end_time ≥ block.start_time

/-- The body of the per-block loop of `_replace_or_reuse_intervals`:
reuse on an exact (sorted) message-id match in `cmap`, else delete the
overlapping conversations of the chat, null their messages' conversation id,
insert a fresh conversation and attach the block's messages. -/
def _replace_step (chat_id : Int) (gap_threshold : ℚ)
    (cmap : List (Int × List Int)) (st : BkState) (block : ConvBlock) :
    BkState :=
  let block_msg_ids := blockMsgIds block
  match cmap.find? (fun p => p.2 = block_msg_ids) with
  | some _ => st
  | none =>
    let overlapIds :=
      (st.convs.filter (overlapsBlock chat_id block)).map (fun c => c.id)
    let msgs1 := st.msgs.map (fun m =>
      if (match m.conversation_id with
          | some cid => decide (cid ∈ overlapIds)
          | none => false) then
        { m with conversation_id := none }
      else m)
    let convs1 := st.convs.filter (fun c => ¬ overlapsBlock chat_id block c)
    let first_msg_sender :=
      match block_msg_ids.head? with
      | none => none
      | some fid => (st.msgs.find? (fun m => m.id = fid)).bind
          (fun m => m.sender_id)
    let newId := st.nextConvId
    let convs2 := convs1 ++
      [{ id := newId, chat_id := chat_id, initiator_id := first_msg_sender,
         start_time := block.start_time, end_time := block.end_time,
         message_count := block_msg_ids.length,
         gap_threshold := gap_threshold }]
    let msgs2 :=
      if block_msg_ids ≠ [] then
        msgs1.map (fun m =>
          if m.id ∈ block_msg_ids then { m with conversation_id := some newId }
          else m)
      else msgs1
    { convs := convs2, msgs := msgs2, nextConvId := st.nextConvId + 1 }

/-- Existing conversations of the chat in ascending `start_time` order
(the `ORDER BY start_time` of the initial query). -/
def existingConvsOf (st : BkState) (chat_id : Int) : List ConvTableRow :=
  isort (fun a b => a.start_time ≤ b.start_time)
    (st.convs.filter (fun c => c.chat_id = chat_id))

/-- `etl_conversations._replace_or_reuse_intervals`: process each fresh block
against the message-id map computed once from the entry state. -/
def _replace_or_reuse_intervals (chat_id : Int) (new_blocks : List ConvBlock)
    (gap_threshold : ℚ) (st0 : BkState) : BkState :=
  let cmap := conv_msg_map st0.msgs
    ((existingConvsOf st0 chat_id).map (fun c => c.id))
  new_blocks.foldl (_replace_step chat_id gap_threshold cmap) st0

/-! ## Properties named by the segmentation claim -/

/-- A block is well formed for gap `g`: nonempty, its `start_time`/`end_time`
are the timestamps of its first and last message, and consecutive messages
inside it are at most `g` seconds apart. -/
def SegWF (g : ℚ) (b : ConvBlock) : Prop :=
  b.messages.head?.map RawMsg.ts = some b.start_time ∧
  b.messages.getLast?.map RawMsg.ts = some b.end_time ∧
  b.messages.Chain' (fun a c => c.ts - a.ts ≤ g)

/-- Two adjacent blocks are separated by a gap strictly exceeding `g`:
the first message of the later block is more than `g` seconds after the end
of the earlier one. -/
def SegBd (g : ℚ) (b b' : ConvBlock) : Prop :=
  ∀ m ∈ b'.messages.head?, m.ts - b.end_time > g

/-! ## Normaliser: text payloads, GUIDs and chat identifiers (`etl_messages`) -/

/-- Python substring containment (`pat in s`). -/
def containsSub (pat : Str) : Str → Bool
  | [] => pat.isPrefixOf []
  | c :: cs => pat.isPrefixOf (c :: cs) || containsSub pat cs

/-- Structural worker for `splitSub`: `fuel` bounds the remaining string
length (every step strictly shortens the string, so `fuel = s.length` is
enough; the fuel keeps the recursion structural and kernel-reducible). -/
def splitSubAux (pat : Str) : Nat → Str → List Str
  | _, [] => [[]]
  | 0, s => [s]
  | Nat.succ n, c :: cs =>
    if pat ≠ [] ∧ pat.isPrefixOf (c :: cs) then
      [] :: splitSubAux pat n ((c :: cs).drop pat.length)
    else
      match splitSubAux pat n cs with
      | [] => [[c]]
      | t :: ts => (c :: t) :: ts

/-- Python `s.split(pat)` for a nonempty separator (leftmost,
non-overlapping). -/
def splitSub (pat : Str) (s : Str) : List Str :=
  splitSubAux pat s.length s

/-- ASCII fragment of Python `str.isprintable` (space printable, C0 controls
and DEL not; non-ASCII code points are treated as printable, which is exact
for everything the cleaning step can still contain). -/
def pyIsPrintable (c : Char) : Bool := 0x20 ≤ c.val ∧ c.val ≠ 0x7f

/-- `etl_messages._clean_message_content`: drop U+FFFC, U+0001 and U+FFFD,
keep printable characters plus space/newline/tab, and strip. -/
def _clean_message_content (content : Option Str) : Str :=
  match content with
  | none => []
  | some s =>
    if s = [] then []
    else
      let cleaned := s.filter (fun c =>
        ¬(c = '\uFFFC' ∨ c = '\x01' ∨ c = '\uFFFD'))
      let filtered := cleaned.filter (fun c =>
        pyIsPrintable c ∨ c = ' ' ∨ c = '\n' ∨ c = '\t')
      pyStrip filtered

/-- `etl_messages.decode_attributed_body`: the nested
NSNumber/NSString/NSDictionary split dance; every other path returns "". -/
def decode_attributed_body (attributed_body : Option Str) : Str :=
  match attributed_body with
  | none => []
  | some body =>
    if body = [] then []
    else if containsSub ("NSNumber".data) body then
      let b1 := (splitSub ("NSNumber".data) body).headD []
      if containsSub ("NSString".data) b1 then
        let b2 := ((splitSub ("NSString".data) b1)[1]?).getD []
        if containsSub ("NSDictionary".data) b2 then
          let b3 := (splitSub ("NSDictionary".data) b2).headD []
          pyStrip ((b3.take (b3.length - 12)).drop 6)
        else []
      else []
    else []

/-- Lexicographic order on strings by code point (Python `str` order). -/
def lexLe : Str → Str → Bool
  | [], _ => true
  | _ :: _, [] => false
  | x :: xs, y :: ys => if x = y then lexLe xs ys else decide (x < y)

/-- Python `sep.join`. -/
def joinWith (sep : Char) : List Str → Str
  | [] => []
  | [x] => x
  | x :: y :: ys => x ++ sep :: joinWith sep (y :: ys)

/-- `etl_messages.generate_chat_identifier`: canonicalise each participant
(lowercase emails, normalised phones), deduplicate, sort, comma-join. -/
def generate_chat_identifier (participants : List Str) : Str :=
  let normalized := participants.map (fun p0 =>
    let p := pyStrip p0
    if '@' ∈ p then pyLower p else normalize_phone_number p)
  joinWith ',' (isort lexLe normalized.dedup)

/-- `_clean_guid` lifted to a nullable column (`None`/"" pass through). -/
def _clean_guidOpt : Option Str → Option Str
  | none => none
  | some s => some (_clean_guid s)

/-- Python truthiness of a nullable integer (`None` and `0` are falsy). -/
def pyFalsyOptInt : Option Int → Bool
  | none => true
  | some k => k = 0

/-- Python truthiness of a nullable string (`None` and `""` are falsy). -/
def pyFalsyOptStr : Option Str → Bool
  | none => true
  | some s => s = []

/-! ## Source rows and `transform_message` -/

/-- A raw source row as fetched from `chat.db`
(`extract_messages` / `fetch_new_messages`). -/
structure SrcRow where
  message_id : Int
  guid : Option Str
  text : Option Str
  attributedBody : Option Str
  handle_id : Option Int
  service : Option Str
  date : Option Int
  is_from_me : Int
  associated_message_guid : Option Str
  associated_message_type : Option Int
  reply_to_guid : Option Str
  sender_identifier : Option Str
  chat_id : Int
  chat_participants : Option Str
deriving DecidableEq, Repr

/-- The dict produced by `etl_messages.transform_message`. -/
structure TransformedMsg where
  chat_identifier : Str
  sender_identifier : Str
  content : Str
  timestamp : Option ℚ
  is_from_me : Bool
  message_type : Option Int
  service_name : Option Str
  guid : Option Str
  associated_message_guid : Option Str
  reply_to_guid : Option Str
deriving DecidableEq, Repr

/-- `etl_messages.transform_message`. -/
def transform_message (message : SrcRow) : TransformedMsg :=
  let participants := match message.chat_participants with
    | some cp => if cp ≠ [] then splitSub [','] cp else []
    | none => []
  let chat_identifier := generate_chat_identifier participants
  let sender0 := match message.sender_identifier with
    | none => []
    | some str => str
  let sender_identifier :=
    if '@' ∈ sender0 then pyLower sender0 else normalize_phone_number sender0
  let content1 :=
    if pyFalsyOptStr message.text ∧ ¬ pyFalsyOptStr message.attributedBody then
      some (decode_attributed_body message.attributedBody)
    else message.text
  { chat_identifier := chat_identifier
    sender_identifier := sender_identifier
    content := _clean_message_content content1
    timestamp := _convert_apple_timestamp message.date
    is_from_me := message.is_from_me ≠ 0
    message_type := message.associated_message_type
    service_name := message.service
    guid := message.guid
    associated_message_guid := _clean_guidOpt message.associated_message_guid
    reply_to_guid := message.reply_to_guid }

/-! ## Backup sync path: `load_messages` -/

/-- A tuple staged for the `messages` table by `load_messages`. -/
structure MsgInsertData where
  chat_id : Int
  sender_id : Option Int
  content : Str
  timestamp : Option ℚ
  is_from_me : Bool
  message_type : Option Int
  service_name : Option Str
  guid : Option Str
deriving DecidableEq, Repr

/-- A tuple staged for the `reactions` table by `load_messages`. -/
structure ReactInsertData where
  original_message_guid : Option Str
  reaction_type : Option Int
  sender_id : Option Int
  timestamp : Option ℚ
  chat_id : Int
  guid : Option Str
deriving DecidableEq, Repr

/-- The lookup maps `load_messages` builds from the target store before its
loop (chat map, existing GUID sets, user contact). -/
structure LoadMsgsEnv where
  chat_map : List (Str × Int)
  existing_message_guids : List Str
  existing_reaction_guids : List Str
  user_id : Option Int
deriving Repr

/-- The mutable state of the `load_messages` loop. -/
structure LoadMsgsState where
  contact_map : List (Str × Int)
  next_contact_id : Int
  contacts_inserted : List (Int × Str)
  contact_identifiers_inserted : List (Int × Str × Str)
  messages_to_insert : List MsgInsertData
  messages_to_update : List MsgInsertData
  reactions_to_insert : List ReactInsertData
  reactions_to_update : List ReactInsertData
  chat_counts : List (Int × Int)
  imported : Int
  skipped : Int
  missing_chat_identifiers : List Str
deriving Repr

/-- The identifier kind inferred from the presence of `'@'`. -/
def identType (identifier : Str) : Str :=
  if '@' ∈ identifier then "Email".data else "Phone".data

/-- `etl_messages.create_contact_for_unknown_sender`: insert a contact named
after the identifier plus one primary contact identifier; return the new
id. -/
def create_contact_for_unknown_sender (st : LoadMsgsState)
    (identifier : Str) : LoadMsgsState × Int :=
  let contact_id := st.next_contact_id
  ({ st with
      contacts_inserted := st.contacts_inserted ++ [(contact_id, identifier)],
      contact_identifiers_inserted := st.contact_identifiers_inserted ++
        [(contact_id, identifier, identType identifier)],
      next_contact_id := st.next_contact_id + 1 }, contact_id)

/-- The body of the per-message loop of `load_messages` (the transformed
dicts fed to it carry no `is_group`/`display_name` keys, so the display-name
branch of the source is never taken). -/
def load_messages_step (env : LoadMsgsEnv) (st : LoadMsgsState)
    (msg : TransformedMsg) : LoadMsgsState :=
  let chat_idO := alistGet? env.chat_map msg.chat_identifier
  if pyFalsyOptInt chat_idO then
    { st with
      skipped := st.skipped + 1,
      missing_chat_identifiers :=
        if msg.chat_identifier ∈ st.missing_chat_identifiers then
          st.missing_chat_identifiers
        else st.missing_chat_identifiers ++ [msg.chat_identifier] }
  else
    let chat_id := chat_idO.getD 0
    let senderRes :=
      if msg.is_from_me then (st, env.user_id)
      else
        let s0 := alistGet? st.contact_map msg.sender_identifier
        if pyFalsyOptInt s0 then
          let created := create_contact_for_unknown_sender st
            msg.sender_identifier
          ({ created.1 with
              contact_map := alistSet created.1.contact_map
                msg.sender_identifier created.2 }, some created.2)
        else (st, s0)
    let st1 := senderRes.1
    let sender_id := senderRes.2
    if ¬ (msg.message_type = some 0) then
      let rdata : ReactInsertData :=
        ⟨msg.associated_message_guid, msg.message_type, sender_id,
         msg.timestamp, chat_id, msg.guid⟩
      if (match msg.guid with
          | none => false
          | some gv => gv ∈ env.existing_reaction_guids) then
        { st1 with reactions_to_update := st1.reactions_to_update ++ [rdata] }
      else
        { st1 with reactions_to_insert := st1.reactions_to_insert ++ [rdata] }
    else
      let mdata : MsgInsertData :=
        ⟨chat_id, sender_id, msg.content, msg.timestamp, msg.is_from_me,
         msg.message_type, msg.service_name, msg.guid⟩
      if (match msg.guid with
          | none => false
          | some gv => gv ∈ env.existing_message_guids) then
        { st1 with messages_to_update := st1.messages_to_update ++ [mdata] }
      else
        { st1 with
          messages_to_insert := st1.messages_to_insert ++ [mdata],
          chat_counts := alistSet st1.chat_counts chat_id
            ((alistGet? st1.chat_counts chat_id).getD 0 + 1),
          imported := st1.imported + 1 }

/-! ## Live sync: internal store, caches (`live_sync/cache.py`) and
`sync_messages` -/

/-- A row of the `chats` table. -/
structure ChatRow where
  id : Int
  chat_identifier : Str
  created_date : ℚ
  last_message_date : ℚ
  is_group : Bool
  service_name : Str
  total_messages : Int
deriving DecidableEq, Repr

/-- A row of the `contacts` table. -/
structure ContactRow where
  id : Int
  name : Str
  is_me : Bool
  data_source : Option Str
deriving DecidableEq, Repr

/-- A row of the `contact_identifiers` table (`kind` is the `type` column). -/
structure ContactIdentRow where
  contact_id : Int
  identifier : Str
  kind : Str
  is_primary : Bool
deriving DecidableEq, Repr

/-- A row of the `messages` table. -/
structure MsgRow where
  id : Int
  chat_id : Int
  sender_id : Option Int
  content : Str
  timestamp : Option ℚ
  is_from_me : Bool
  message_type : Option Int
  service_name : Option Str
  guid : Str
deriving DecidableEq, Repr

/-- A row of the `reactions` table. -/
structure ReactRow where
  original_message_guid : Option Str
  reaction_type : Option Int
  sender_id : Option Int
  timestamp : Option ℚ
  chat_id : Int
  guid : Str
deriving DecidableEq, Repr

/-- A tuple staged for insertion into `messages` by `sync_messages`. -/
structure StagedMsg where
  chat_id : Int
  sender_id : Int
  content : Str
  timestamp : Option ℚ
  is_from_me : Bool
  message_type : Option Int
  service_name : Option Str
  guid : Str
deriving DecidableEq, Repr

/-- The internal store together with the process-wide caches of
`live_sync/cache.py` (each cache with its populated flag). -/
structure SyncState where
  chats : List ChatRow
  contacts : List ContactRow
  contact_identifiers : List ContactIdentRow
  messages : List MsgRow
  reactions : List ReactRow
  nextChatId : Int
  nextContactId : Int
  nextMessageId : Int
  CONTACT_MAP_CACHE : List (Str × Int)
  contacts_cache_populated : Bool
  MESSAGE_GUID_TO_ID_CACHE : List (Str × Int)
  message_guid_cache_populated : Bool
  CHAT_MAP_CACHE : List (Str × Int)
  chat_map_cache_populated : Bool
  REACTION_GUID_CACHE : List Str
  reaction_guid_cache_populated : Bool
deriving DecidableEq, Repr

/-- The canonical cache key for a sender identifier (lowercased email or
normalised phone), as computed in both `cache.get_contact_map` and
`sync_messages`. -/
def senderCacheKey (original : Str) : Str :=
  if '@' ∈ original then pyLower original else normalize_phone_number original

/-- The `(identifier, id)` pairs the chat-map cache is rebuilt from. -/
def chatMapEntries (s : SyncState) : List (Str × Int) :=
  s.chats.map (fun c => (c.chat_identifier, c.id))

/-- `cache.get_chat_map` (mutating getter). -/
def get_chat_map (s : SyncState) : SyncState :=
  if s.CHAT_MAP_CACHE = [] ∨ ¬ s.chat_map_cache_populated then
    { s with CHAT_MAP_CACHE := alistOfPairs (chatMapEntries s),
             chat_map_cache_populated := true }
  else s

/-- The `(guid, id)` pairs the message cache is rebuilt from. -/
def msgGuidEntries (s : SyncState) : List (Str × Int) :=
  s.messages.map (fun m => (m.guid, m.id))

/-- `cache.get_message_guid_to_id_map` (mutating getter). -/
def get_message_guid_to_id_map (s : SyncState) : SyncState :=
  if s.MESSAGE_GUID_TO_ID_CACHE = [] ∨ ¬ s.message_guid_cache_populated then
    { s with MESSAGE_GUID_TO_ID_CACHE := alistOfPairs (msgGuidEntries s),
             message_guid_cache_populated := true }
  else s

/-- `cache.get_reaction_guids` (mutating getter; the Python set is modelled
as a first-occurrence deduplicated list). -/
def get_reaction_guids (s : SyncState) : SyncState :=
  if s.REACTION_GUID_CACHE = [] ∨ ¬ s.reaction_guid_cache_populated then
    { s with REACTION_GUID_CACHE := (s.reactions.map (fun r => r.guid)).dedup,
             reaction_guid_cache_populated := true }
  else s

/-- The `(key, contact id)` pairs the contact cache is rebuilt from
(the `contacts ⋈ contact_identifiers` join, in identifier-table order). -/
def contactMapEntries (s : SyncState) : List (Str × Int) :=
  (s.contact_identifiers.filter (fun ci =>
    s.contacts.any (fun c => c.id = ci.contact_id))).map
    (fun ci => (senderCacheKey ci.identifier, ci.contact_id))

/-- `cache.get_contact_map` (mutating getter). -/
def get_contact_map (s : SyncState) : SyncState :=
  if s.CONTACT_MAP_CACHE = [] ∨ ¬ s.contacts_cache_populated then
    { s with CONTACT_MAP_CACHE := alistOfPairs (contactMapEntries s),
             contacts_cache_populated := true }
  else s

/-- The four cache fetches at the top of `sync_messages`. -/
def populate_caches (s : SyncState) : SyncState :=
  get_contact_map (get_reaction_guids (get_message_guid_to_id_map
    (get_chat_map s)))

/-- The is-me contact lookup/creation at the top of `sync_messages`. -/
def ensure_user (s : SyncState) : SyncState × Int :=
  match s.contacts.find? (fun c => c.is_me) with
  | some c => if c.id = 0 then mkMeContact s else (s, c.id)
  | none => mkMeContact s
where
  /-- `INSERT INTO contacts (name, is_me, data_source) VALUES
  ('Me', True, 'system_user')`. -/
  mkMeContact (s : SyncState) : SyncState × Int :=
    ({ s with
        contacts := s.contacts ++
          [⟨s.nextContactId, "Me".data, true, some ("system_user".data)⟩],
        nextContactId := s.nextContactId + 1 }, s.nextContactId)

/-- The provenance tag of contacts auto-created by the live sync. -/
def liveSyncSrc : Str := "live_sync_message_sender".data

/-- First pass of the batch contact creation: the `(cache key, original
identifier)` pairs of senders absent from the contact cache (unique per
key, in first-appearance order, modelling the Python dict). -/
def collectUnknownSenders (s : SyncState) (new_rows : List SrcRow) :
    List (Str × Str) :=
  new_rows.foldl (fun acc row =>
    match row.sender_identifier with
    | none => acc
    | some orig =>
      if row.is_from_me = 0 ∧ orig ≠ [] then
        let key := senderCacheKey orig
        if alistGet? s.CONTACT_MAP_CACHE key = none ∧ alistGet? acc key = none
        then acc ++ [(key, orig)]
        else acc
      else acc) []

/-- Bulk `INSERT INTO contacts (name, data_source)` for the unknown-sender
names. -/
def bulkInsertContacts (s : SyncState) (names : List Str) : SyncState :=
  names.foldl (fun st name =>
    { st with
      contacts := st.contacts ++
        [⟨st.nextContactId, name, false, some liveSyncSrc⟩],
      nextContactId := st.nextContactId + 1 }) s

/-- The `SELECT id, name FROM contacts WHERE name IN (...) AND data_source =
'live_sync_message_sender'` retrieval, accumulated as a name → id dict (last
row wins). -/
def retrievedInfo (s : SyncState) (names : List Str) : List (Str × Int) :=
  alistOfPairs ((s.contacts.filter (fun c =>
    c.name ∈ names ∧ c.data_source = some liveSyncSrc)).map
    (fun c => (c.name, c.id)))

/-- `INSERT INTO contact_identifiers ... ON CONFLICT(contact_id, identifier,
type) DO NOTHING`. -/
def insertCIConflictIgnore (s : SyncState) (rows : List ContactIdentRow) :
    SyncState :=
  rows.foldl (fun st r =>
    if st.contact_identifiers.any (fun e =>
        e.contact_id = r.contact_id ∧ e.identifier = r.identifier ∧
          e.kind = r.kind) then st
    else { st with contact_identifiers := st.contact_identifiers ++ [r] }) s

/-- The batch contact-creation phase of `sync_messages`. -/
def batchCreateContacts (s : SyncState) (new_rows : List SrcRow) :
    SyncState :=
  let unknowns := collectUnknownSenders s new_rows
  if unknowns = [] then s
  else
    let names := (unknowns.map (fun u => u.2)).dedup
    let s1 := bulkInsertContacts s names
    let retrieved := retrievedInfo s1 names
    let s2 := unknowns.foldl (fun st u =>
      match alistGet? retrieved u.2 with
      | some cid =>
        { st with
          CONTACT_MAP_CACHE := alistSet st.CONTACT_MAP_CACHE u.1 cid }
      | none => st) s1
    let ciRows := unknowns.foldl (fun acc u =>
      match alistGet? retrieved u.2 with
      | some cid => acc ++ [⟨cid, u.2, identType u.2, true⟩]
      | none => acc) ([] : List ContactIdentRow)
    insertCIConflictIgnore s2 ciRows

/-- The staged inserts, counters and diagnostics of the `sync_messages`
loop. -/
structure SyncStaging where
  messages_to_insert : List StagedMsg
  reactions_to_insert : List ReactRow
  chat_counts : List (Int × Int)
  imported : Int
  skipped : Int
  missing_chat_identifiers : List Str
  created_chats : Int
deriving DecidableEq, Repr

/-- The empty staging the loop starts from. -/
def emptyStaging : SyncStaging := ⟨[], [], [], 0, 0, [], 0⟩

/-- Source-side inputs of a sync run: the participants-by-source-chat-id
cache (read from the source database) and the wall-clock instant used for
created chats. -/
structure SyncEnv where
  chat_participants_map : List (Int × Str)
  now : ℚ
deriving Repr

/-- The database-check-then-insert tail of
`sync_messages.create_chat_if_missing`. -/
def chat_db_check (env : SyncEnv) (s : SyncState) (chat_identifier : Str)
    (is_group : Bool) : SyncState × Option Int :=
  match s.chats.find? (fun c => c.chat_identifier = chat_identifier) with
  | some c =>
    ({ s with
        CHAT_MAP_CACHE := alistSet s.CHAT_MAP_CACHE chat_identifier c.id },
     some c.id)
  | none =>
    let newId := s.nextChatId
    ({ s with
        chats := s.chats ++
          [⟨newId, chat_identifier, env.now, env.now, is_group,
            "iMessage".data, 0⟩],
        nextChatId := s.nextChatId + 1,
        CHAT_MAP_CACHE := alistSet s.CHAT_MAP_CACHE chat_identifier newId },
     some newId)

/-- `sync_messages.create_chat_if_missing`. -/
def create_chat_if_missing (env : SyncEnv) (s : SyncState)
    (chat_identifier : Str) (is_group : Bool) : SyncState × Option Int :=
  match alistGet? s.CHAT_MAP_CACHE chat_identifier with
  | some cid =>
    if cid ≠ 0 then (s, some cid)
    else chat_db_check env s chat_identifier is_group
  | none => chat_db_check env s chat_identifier is_group

/-- The chat-participants fixups applied to each row before
`transform_message` (cached participants by source chat id, then the raw
sender identifier, then `""`). -/
def fixParticipants (env : SyncEnv) (row : SrcRow) : SrcRow :=
  let cp1 := if pyFalsyOptStr row.chat_participants then
      match alistGet? env.chat_participants_map row.chat_id with
      | some p => some p
      | none => row.chat_participants
    else row.chat_participants
  let cp2 := if pyFalsyOptStr cp1 then
      some ((row.sender_identifier).getD [])
    else cp1
  { row with chat_participants := cp2 }

/-- The body of the per-row loop of `sync_messages`. -/
def sync_row_step (env : SyncEnv) (user_id : Int)
    (acc : SyncState × SyncStaging) (row : SrcRow) :
    SyncState × SyncStaging :=
  let s := acc.1
  let stg := acc.2
  let row' := fixParticipants env row
  let transformed := transform_message row'
  let chatLook := alistGet? s.CHAT_MAP_CACHE transformed.chat_identifier
  let createRes :=
    if pyFalsyOptInt chatLook ∧ transformed.chat_identifier ≠ [] then
      let is_group :=
        match row'.chat_participants with
        | some v => if v ≠ [] then decide ((splitSub [','] v).length > 1)
                    else false
        | none => false
      create_chat_if_missing env s transformed.chat_identifier is_group
    else (s, chatLook)
  let s2 := createRes.1
  let chat_idO := createRes.2
  let createdInc : Int :=
    if pyFalsyOptInt chatLook ∧ transformed.chat_identifier ≠ [] ∧
        ¬ pyFalsyOptInt chat_idO then 1 else 0
  let stg1 := { stg with created_chats := stg.created_chats + createdInc }
  if pyFalsyOptInt chat_idO then
    (s2, { stg1 with
           skipped := stg1.skipped + 1,
           missing_chat_identifiers :=
             if transformed.chat_identifier ∈ stg1.missing_chat_identifiers
             then stg1.missing_chat_identifiers
             else stg1.missing_chat_identifiers ++
               [transformed.chat_identifier] })
  else
    let chat_id := chat_idO.getD 0
    let senderRes : Option Int :=
      if transformed.is_from_me then some user_id
      else
        match alistGet? s2.CONTACT_MAP_CACHE
            (senderCacheKey transformed.sender_identifier) with
        | none => none
        | some sid => if sid = 0 then none else some sid
    match senderRes with
    | none => (s2, { stg1 with skipped := stg1.skipped + 1 })
    | some sender_id =>
      match transformed.guid with
      | none => (s2, { stg1 with skipped := stg1.skipped + 1 })
      | some gv =>
        if gv = [] then (s2, { stg1 with skipped := stg1.skipped + 1 })
        else
          if (match transformed.message_type with
              | some t => decide (t ≠ 0)
              | none => false) then
            if gv ∈ s2.REACTION_GUID_CACHE then (s2, stg1)
            else
              (s2, { stg1 with
                     reactions_to_insert := stg1.reactions_to_insert ++
                       [⟨transformed.associated_message_guid,
                         transformed.message_type, some sender_id,
                         transformed.timestamp, chat_id, gv⟩] })
          else
            if alistGet? s2.MESSAGE_GUID_TO_ID_CACHE gv = none then
              (s2, { stg1 with
                     messages_to_insert := stg1.messages_to_insert ++
                       [⟨chat_id, sender_id, transformed.content,
                         transformed.timestamp, transformed.is_from_me,
                         transformed.message_type, transformed.service_name,
                         gv⟩],
                     chat_counts := alistSet stg1.chat_counts chat_id
                       ((alistGet? stg1.chat_counts chat_id).getD 0 + 1),
                     imported := stg1.imported + 1 })
            else (s2, stg1)

/-- Commit phase: insert staged messages (ids from the autoincrement
cursor), then re-query the inserted GUIDs to refresh the message cache. -/
def commitMessages (s : SyncState) (staged : List StagedMsg) : SyncState :=
  if staged = [] then s
  else
    let guids := staged.map (fun m => m.guid)
    let s1 := staged.foldl (fun st m =>
      { st with
        messages := st.messages ++
          [⟨st.nextMessageId, m.chat_id, some m.sender_id, m.content,
            m.timestamp, m.is_from_me, m.message_type, m.service_name,
            m.guid⟩],
        nextMessageId := st.nextMessageId + 1 }) s
    { s1 with
      MESSAGE_GUID_TO_ID_CACHE :=
        ((s1.messages.filter (fun m => m.guid ∈ guids)).map
          (fun m => (m.guid, m.id))).foldl
          (fun acc p => alistSet acc p.1 p.2) s1.MESSAGE_GUID_TO_ID_CACHE }

/-- Commit phase: insert staged reactions and add their GUIDs to the
reaction cache (set semantics). -/
def commitReactions (s : SyncState) (staged : List ReactRow) : SyncState :=
  if staged = [] then s
  else
    { s with
      reactions := s.reactions ++ staged,
      REACTION_GUID_CACHE := staged.foldl
        (fun acc r => if r.guid ∈ acc then acc else acc ++ [r.guid])
        s.REACTION_GUID_CACHE }

/-- Commit phase: `UPDATE chats SET total_messages = total_messages + ?`. -/
def applyChatCounts (s : SyncState) (counts : List (Int × Int)) : SyncState :=
  if counts = [] then s
  else
    { s with
      chats := s.chats.map (fun c =>
        match alistGet? counts c.id with
        | some n => { c with total_messages := c.total_messages + n }
        | none => c) }

/-- `live_sync.sync_messages.sync_messages`: returns the new state, the
imported count and the per-chat insert counts. -/
def sync_messages (env : SyncEnv) (s0 : SyncState) (new_rows : List SrcRow) :
    SyncState × Int × List (Int × Int) :=
  if new_rows = [] then (s0, 0, [])
  else
    let s1 := populate_caches s0
    let userRes := ensure_user s1
    let s3 := batchCreateContacts userRes.1 new_rows
    let loopRes := new_rows.foldl (sync_row_step env userRes.2)
      (s3, emptyStaging)
    let stg := loopRes.2
    let s5 := commitMessages loopRes.1 stg.messages_to_insert
    let s6 := commitReactions s5 stg.reactions_to_insert
    let s7 := applyChatCounts s6 stg.chat_counts
    (s7, stg.imported, stg.chat_counts)

/-! ## Extractor (`live_sync/extractors.py`) and watcher watermarks
(`live_sync/wal.py`) -/

/-- `to_nanos` applied to every non-null `date` of a fetched batch. -/
def normalizeDates (rows : List SrcRow) : List SrcRow :=
  rows.map (fun m => match m.date with
    | none => m
    | some d => { m with date := some (to_nanos d) })

/-- The SQL of `fetch_new_messages`: rows with ROWID strictly above the
watermark, ascending. -/
def queryNewMessages (source : List SrcRow) (last_rowid : Int) :
    List SrcRow :=
  isort (fun a b => a.message_id ≤ b.message_id)
    (source.filter (fun m => m.message_id > last_rowid))

/-- `extractors.fetch_new_messages`, with the outcome of the database query
made explicit: on success, the date-normalised rows plus the maximum ROWID
observed (the input watermark when empty) and an untouched connection; on a
database error, an empty batch, the unchanged watermark, and the cached
connection reset for re-establishment. -/
def fetch_new_messages (conn : Option Unit)
    (queryResult : Except Unit (List SrcRow)) (last_rowid : Int) :
    (List SrcRow × Int) × Option Unit :=
  match queryResult with
  | Except.ok rows =>
    let max_rowid := match rows.map (fun m => m.message_id) with
      | [] => last_rowid
      | x :: xs => xs.foldl max x
    ((normalizeDates rows, max_rowid), conn)
  | Except.error _ => (([], last_rowid), none)

/-- A raw attachment row from the source store. -/
structure AttachRow where
  rowid : Int
  guid : Option Str
  created_date : Option Int
  filename : Option Str
  uti : Option Str
  mime_type : Option Str
  total_bytes : Option Int
  is_sticker : Bool
  message_guid : Option Str
deriving DecidableEq, Repr

/-- `extractors.fetch_new_attachments`, with the query outcome explicit
(same error contract as `fetch_new_messages`). -/
def fetch_new_attachments (conn : Option Unit)
    (queryResult : Except Unit (List AttachRow)) (last_rowid : Int) :
    (List AttachRow × Int) × Option Unit :=
  match queryResult with
  | Except.ok rows =>
    let max_rowid := match rows.map (fun a => a.rowid) with
      | [] => last_rowid
      | x :: xs => xs.foldl max x
    ((rows, max_rowid), conn)
  | Except.error _ => (([], last_rowid), none)

/-- One successful consumer cycle of `wal.watch`, restricted to the state it
writes through `sync_messages` and the two message-side watermarks (the
attachment branch touches neither, and `etl_conversations` writes no
watermark): fetch by ROWID, sync, advance the ROWID watermark whenever the
batch is nonempty, and set the `apple_epoch_ns` watermark to the maximum
integer date of the batch only when at least one message was imported and an
integer date exists. Returns (state, message-rowid watermark, apple-ns
watermark). -/
def watch_cycle (env : SyncEnv) (source_messages : List SrcRow)
    (s0 : SyncState) (conn : Option Unit) (message_rowid_wm apple_ns_wm : Int) :
    SyncState × Int × Int :=
  let fm := fetch_new_messages conn
    (Except.ok (queryNewMessages source_messages message_rowid_wm))
    message_rowid_wm
  let new_messages := fm.1.1
  let new_message_rowid := fm.1.2
  if new_messages = [] then (s0, message_rowid_wm, apple_ns_wm)
  else
    let res := sync_messages env s0 new_messages
    let valid_dates := new_messages.filterMap (fun m => m.date)
    let ns_wm :=
      if res.2.1 > 0 then
        match valid_dates with
        | [] => apple_ns_wm
        | d :: ds => ds.foldl max d
      else apple_ns_wm
    (res.1, new_message_rowid, ns_wm)

/-- An empty internal store with autoincrement cursors at 1 and unpopulated
caches (fixture for concrete runs). -/
def emptySyncState : SyncState :=
  ⟨[], [], [], [], [], 1, 1, 1, [], false, [], false, [], false, [], false⟩

/-! ## Well-formedness and coverage predicates for the idempotence claim -/

/-- Well-formedness of the internal store before a sync run: positive ids
below the autoincrement cursors for chats and contacts, and referential
integrity of contact identifiers (the invariants SQLite's rowid allocation
and foreign keys provide). -/
def SyncWF (s : SyncState) : Prop :=
  (∀ c ∈ s.chats, 0 < c.id) ∧ 0 < s.nextChatId
  ∧ (∀ c ∈ s.contacts, 0 < c.id) ∧ 0 < s.nextContactId
  ∧ (∀ ci ∈ s.contact_identifiers, ∃ c ∈ s.contacts, c.id = ci.contact_id)

/-- The sender of a transformed message resolves against the contact cache
of `s` (or the row is from-me). -/
def senderResolvesAt (s : SyncState) (t : TransformedMsg) : Prop :=
  t.is_from_me = true ∨
    (∃ sid, alistGet? s.CONTACT_MAP_CACHE
        (senderCacheKey t.sender_identifier) = some sid ∧ sid ≠ 0)

/-- A source row is fully covered by the state `s`: processing it with
`sync_row_step` neither changes `s` nor stages an insert. -/
def RowNoop (env : SyncEnv) (s : SyncState) (row : SrcRow) : Prop :=
  let t := transform_message (fixParticipants env row)
  (¬ (pyFalsyOptInt (alistGet? s.CHAT_MAP_CACHE t.chat_identifier) = true ∧
      t.chat_identifier ≠ []))
  ∧ (∀ gv, t.guid = some gv → gv ≠ [] →
      ¬ (pyFalsyOptInt (alistGet? s.CHAT_MAP_CACHE t.chat_identifier) = true) →
      senderResolvesAt s t →
      (((match t.message_type with
         | some ty => decide (ty ≠ 0)
         | none => false) = true → gv ∈ s.REACTION_GUID_CACHE)
       ∧ ((match t.message_type with
           | some ty => decide (ty ≠ 0)
           | none => false) = false →
          alistGet? s.MESSAGE_GUID_TO_ID_CACHE gv ≠ none)))

/-- Every unknown-sender key of the row is already present in the contact
cache of `s` (so the batch contact creation has nothing to do). -/
def SenderKeyPresent (s : SyncState) (row : SrcRow) : Prop :=
  ∀ orig, row.sender_identifier = some orig → row.is_from_me = 0 →
    orig ≠ [] →
    alistGet? s.CONTACT_MAP_CACHE (senderCacheKey orig) ≠ none

/-- The four staging components that a fully covered row must leave
untouched (inserts, per-chat counts, imported counter). -/
def stagingCore (stg : SyncStaging) :
    List StagedMsg × List ReactRow × List (Int × Int) × Int :=
  (stg.messages_to_insert, stg.reactions_to_insert, stg.chat_counts,
   stg.imported)

/-- The caches of `s` are marked populated and each empty cache reflects an
empty backing table (so `populate_caches` has nothing to rebuild). -/
def CachesReady (s : SyncState) : Prop :=
  s.chat_map_cache_populated = true
  ∧ s.message_guid_cache_populated = true
  ∧ s.reaction_guid_cache_populated = true
  ∧ s.contacts_cache_populated = true
  ∧ (s.CHAT_MAP_CACHE = [] → s.chats = [])
  ∧ (s.MESSAGE_GUID_TO_ID_CACHE = [] → s.messages = [])
  ∧ (s.REACTION_GUID_CACHE = [] → s.reactions = [])
  ∧ (s.CONTACT_MAP_CACHE = [] → s.contact_identifiers = [])

/-- An is-me contact exists and all contact ids are positive (so
`ensure_user` finds the user without inserting). -/
def UserReady (s : SyncState) : Prop :=
  (∃ c ∈ s.contacts, c.is_me = true) ∧ (∀ c ∈ s.contacts, 0 < c.id)

/-- The chat-table well-formedness maintained by the per-row loop. -/
def ChatsWF (s : SyncState) : Prop :=
  (∀ c ∈ s.chats, 0 < c.id) ∧ 0 < s.nextChatId

/-- The state components `sync_row_step` never touches (everything but the
chat table, its cache and its id cursor). -/
def loopFrame (s : SyncState) :=
  (s.contacts, s.contact_identifiers, s.messages, s.reactions,
   s.nextContactId, s.nextMessageId, s.CONTACT_MAP_CACHE,
   s.MESSAGE_GUID_TO_ID_CACHE, s.REACTION_GUID_CACHE,
   s.chat_map_cache_populated, s.message_guid_cache_populated,
   s.reaction_guid_cache_populated, s.contacts_cache_populated)

/-- The state components `commitMessages` never touches. -/
def commitMsgFrame (s : SyncState) :=
  (s.chats, s.contacts, s.contact_identifiers, s.reactions, s.nextChatId,
   s.nextContactId, s.CONTACT_MAP_CACHE, s.CHAT_MAP_CACHE,
   s.REACTION_GUID_CACHE, s.chat_map_cache_populated,
   s.message_guid_cache_populated, s.reaction_guid_cache_populated,
   s.contacts_cache_populated)

/-- The state components `commitReactions` never touches. -/
def commitReactFrame (s : SyncState) :=
  (s.chats, s.contacts, s.contact_identifiers, s.messages, s.nextChatId,
   s.nextContactId, s.nextMessageId, s.CONTACT_MAP_CACHE,
   s.MESSAGE_GUID_TO_ID_CACHE, s.CHAT_MAP_CACHE,
   s.chat_map_cache_populated, s.message_guid_cache_populated,
   s.reaction_guid_cache_populated, s.contacts_cache_populated)

/-- The state components `applyChatCounts` never touches. -/
def chatCountsFrame (s : SyncState) :=
  (s.contacts, s.contact_identifiers, s.messages, s.reactions, s.nextChatId,
   s.nextContactId, s.nextMessageId, s.CONTACT_MAP_CACHE,
   s.MESSAGE_GUID_TO_ID_CACHE, s.CHAT_MAP_CACHE, s.REACTION_GUID_CACHE,
   s.chat_map_cache_populated, s.message_guid_cache_populated,
   s.reaction_guid_cache_populated, s.contacts_cache_populated)

/-- The state components `ensure_user` never touches. -/
def userFrame (s : SyncState) :=
  (s.chats, s.contact_identifiers, s.messages, s.reactions, s.nextChatId,
   s.nextMessageId, s.CONTACT_MAP_CACHE, s.MESSAGE_GUID_TO_ID_CACHE,
   s.CHAT_MAP_CACHE, s.REACTION_GUID_CACHE, s.chat_map_cache_populated,
   s.message_guid_cache_populated, s.reaction_guid_cache_populated,
   s.contacts_cache_populated)

/-- The state components `batchCreateContacts` never touches. -/
def batchFrame (s : SyncState) :=
  (s.chats, s.messages, s.reactions, s.nextChatId, s.nextMessageId,
   s.MESSAGE_GUID_TO_ID_CACHE, s.CHAT_MAP_CACHE, s.REACTION_GUID_CACHE,
   s.chat_map_cache_populated, s.message_guid_cache_populated,
   s.reaction_guid_cache_populated, s.contacts_cache_populated)

/-- Mid-run coverage of a processed row: its chat is cached and its GUID is
either in the matching cache or staged for insertion. -/
def StepDone (env : SyncEnv) (s : SyncState) (stg : SyncStaging)
    (row : SrcRow) : Prop :=
  let t := transform_message (fixParticipants env row)
  (¬ (pyFalsyOptInt (alistGet? s.CHAT_MAP_CACHE t.chat_identifier) = true ∧
      t.chat_identifier ≠ []))
  ∧ (∀ gv, t.guid = some gv → gv ≠ [] →
      ¬ (pyFalsyOptInt (alistGet? s.CHAT_MAP_CACHE t.chat_identifier) = true) →
      senderResolvesAt s t →
      (((match t.message_type with
         | some ty => decide (ty ≠ 0)
         | none => false) = true →
          (gv ∈ s.REACTION_GUID_CACHE ∨
            ∃ rr ∈ stg.reactions_to_insert, rr.guid = gv))
       ∧ ((match t.message_type with
           | some ty => decide (ty ≠ 0)
           | none => false) = false →
          (alistGet? s.MESSAGE_GUID_TO_ID_CACHE gv ≠ none ∨
            ∃ m ∈ stg.messages_to_insert, m.guid = gv))))

section C10

lemma normalize_phone_number_all_digits (t : Str) :
    (normalize_phone_number t).all pyIsDigit := by
  unfold normalize_phone_number
  split
  · rfl
  · dsimp only
    have hfil : (t.filter pyIsDigit).all pyIsDigit := by
      rw [List.all_eq_true]
      intro x hx
      exact (List.mem_filter.mp hx).2
    split
    · rw [List.all_eq_true]
      intro x hx
      exact List.all_eq_true.mp hfil x (List.mem_of_mem_tail hx)
    · exact hfil

lemma normalize_phone_number_not_11_leading_one (t : Str) :
    ¬((normalize_phone_number t).length = 11 ∧
      (normalize_phone_number t).head? = some '1') := by
  unfold normalize_phone_number
  split
  · rintro ⟨hlen, -⟩; simp at hlen
  · dsimp only
    split
    · next h =>
      rintro ⟨hlen, -⟩
      have ht : (t.filter pyIsDigit).tail.length = (t.filter pyIsDigit).length - 1 :=
        List.length_tail _
      omega
    · next h =>
      exact h

/-- C10: `normalize_phone_number` is idempotent, its output contains only
digit characters, and its output is never an 11-character string beginning
with `'1'`. -/
theorem normalize_phone_number_idem_digits (s : Str) :
    normalize_phone_number (normalize_phone_number s) = normalize_phone_number s
    ∧ (normalize_phone_number s).all pyIsDigit
    ∧ ¬((normalize_phone_number s).length = 11 ∧
        (normalize_phone_number s).head? = some '1') := by
  refine ⟨?_, normalize_phone_number_all_digits s, normalize_phone_number_not_11_leading_one s⟩
  set d := normalize_phone_number s with hd
  have hdall := normalize_phone_number_all_digits s
  have hdnot := normalize_phone_number_not_11_leading_one s
  rw [← hd] at hdall hdnot
  have hfix : d.filter pyIsDigit = d :=
    List.filter_eq_self.mpr (fun x hx => List.all_eq_true.mp hdall x hx)
  unfold normalize_phone_number
  split
  · next h => rw [h]
  · next h =>
    dsimp only
    rw [hfix]
    split
    · next hc => exact absurd hc hdnot
    · rfl

end C10

section C5

lemma afterFirst_spec (sep : Char) (s : Str) (h : sep ∈ s) :
    ∃ p, s = p ++ sep :: _clean_guid.afterFirst sep s ∧ sep ∉ p := by
  induction s with
  | nil => cases h
  | cons c cs ih =>
    by_cases hc : c = sep
    · subst hc
      exact ⟨[], by simp [_clean_guid.afterFirst], by simp⟩
    · have hmem : sep ∈ cs := by
        rcases List.mem_cons.mp h with h1 | h1
        · exact absurd h1.symm hc
        · exact h1
      obtain ⟨p, hp, hnp⟩ := ih hmem
      refine ⟨c :: p, ?_, ?_⟩
      · simp [_clean_guid.afterFirst, hc, ← hp]
      · intro hmem2
        rcases List.mem_cons.mp hmem2 with h1 | h1
        · exact hc h1.symm
        · exact hnp h1

/-- C5 counterexample: on `"p:0/abc:def"` the code returns the text after the
*first* `'/'`, i.e. `"abc:def"`, not the text after the last separator
(`"def"`) as the claim states. -/
theorem clean_guid_counterexample :
    _clean_guid ("p:0/abc:def".data) = "abc:def".data
    ∧ "abc:def".data ≠ "def".data := by
  constructor
  · decide
  · decide

/-- C5 amended: for every nonempty string containing `'/'`, `_clean_guid`
returns the substring after the *first* `'/'`; for strings containing `':'`
but no `'/'`, the substring after the *first* `':'`; otherwise the string
unchanged. In particular `_clean_guid "p:0/abc" = "abc"`,
`_clean_guid "p:0/abc:def" = "abc:def"`, `_clean_guid "plain" = "plain"`. -/
theorem clean_guid_after_first_separator (s : Str) :
    ('/' ∈ s → ∃ p, s = p ++ '/' :: _clean_guid s ∧ '/' ∉ p)
    ∧ ('/' ∉ s → ':' ∈ s → ∃ p, s = p ++ ':' :: _clean_guid s ∧ ':' ∉ p)
    ∧ ('/' ∉ s → ':' ∉ s → _clean_guid s = s)
    ∧ _clean_guid ("p:0/abc".data) = "abc".data
    ∧ _clean_guid ("p:0/abc:def".data) = "abc:def".data
    ∧ _clean_guid ("plain".data) = "plain".data := by
  refine ⟨?_, ?_, ?_, by decide, by decide, by decide⟩
  · intro h
    have hne : s ≠ [] := by rintro rfl; cases h
    have : _clean_guid s = _clean_guid.afterFirst '/' s := by
      unfold _clean_guid
      simp [hne, h]
    rw [this]
    exact afterFirst_spec '/' s h
  · intro hno h
    have hne : s ≠ [] := by rintro rfl; cases h
    have : _clean_guid s = _clean_guid.afterFirst ':' s := by
      unfold _clean_guid
      simp [hne, hno, h]
    rw [this]
    exact afterFirst_spec ':' s h
  · intro hno1 hno2
    unfold _clean_guid
    by_cases hne : s = []
    · simp [hne]
    · simp [hne, hno1, hno2]

/-- C5 amended witness: concrete instances discharging each hypothesis of
`clean_guid_after_first_separator`. -/
theorem clean_guid_after_first_separator_witness :
    (∃ p, "p:0/abc".data = p ++ '/' :: _clean_guid ("p:0/abc".data) ∧ '/' ∉ p)
    ∧ (∃ p, "a:b:c".data = p ++ ':' :: _clean_guid ("a:b:c".data) ∧ ':' ∉ p)
    ∧ _clean_guid ("plain".data) = "plain".data :=
  ⟨(clean_guid_after_first_separator ("p:0/abc".data)).1 (by decide),
   (clean_guid_after_first_separator ("a:b:c".data)).2.1 (by decide) (by decide),
   (clean_guid_after_first_separator ("plain".data)).2.2.1 (by decide) (by decide)⟩

end C5

section C6

/-- C6 counterexample: at `raw = 10^12` the two timestamp helpers disagree:
`to_nanos` classifies the value as milliseconds and yields `10^18` ns (i.e.
`10^9` seconds past the epoch), while `_convert_apple_timestamp` classifies it
as microseconds and yields `10^6` seconds past the epoch. -/
theorem to_nanos_convert_counterexample :
    to_nanos (10 ^ 12) = 10 ^ 18
    ∧ _convert_apple_timestamp (some (10 ^ 12)) = some ((10 : ℚ) ^ 6)
    ∧ ((10 : ℚ) ^ 18) / 1000000000 ≠ (10 : ℚ) ^ 6 := by
  refine ⟨by norm_num [to_nanos], ?_, by norm_num⟩
  unfold _convert_apple_timestamp
  norm_num

/-- C6 amended: the two helpers denote the same instant (the epoch plus
`to_nanos raw` nanoseconds equals the instant `_convert_apple_timestamp raw`)
whenever `raw ≤ 10^10` (both read seconds), `10^13 < raw ≤ 10^16` (both read
microseconds) or `raw > 10^16` (both read nanoseconds); but on the band
`10^10 < raw ≤ 10^13`, `to_nanos` reads milliseconds while
`_convert_apple_timestamp` reads microseconds, so `to_nanos` denotes an
instant exactly 1000 times as far from the epoch. -/
theorem to_nanos_vs_convert (raw : Int) :
    ((raw ≤ 10 ^ 10 ∨ 10 ^ 13 < raw) →
      _convert_apple_timestamp (some raw) = some ((to_nanos raw : ℚ) / 1000000000))
    ∧ (10 ^ 10 < raw ∧ raw ≤ 10 ^ 13 →
      _convert_apple_timestamp (some raw) =
        some ((to_nanos raw : ℚ) / (1000 * 1000000000))) := by
  constructor
  · rintro (h | h)
    · have h1 : ¬ raw > 10 ^ 16 := by omega
      have h2 : ¬ raw > 10 ^ 13 := by omega
      have h3 : ¬ raw > 10 ^ 10 := by omega
      unfold _convert_apple_timestamp to_nanos
      simp only [h1, h2, h3, if_neg, if_pos, if_false]
      rw [if_pos h]
      push_cast
      norm_num
    · by_cases h16 : raw > 10 ^ 16
      · have hc1 : ¬ raw ≤ 10 ^ 10 := by omega
        have hc2 : ¬ raw ≤ 10 ^ 16 := by omega
        unfold _convert_apple_timestamp to_nanos
        dsimp only
        rw [if_neg hc1, if_neg hc2, if_pos h16]
      · have hc1 : ¬ raw ≤ 10 ^ 10 := by omega
        have hc2 : raw ≤ 10 ^ 16 := by omega
        unfold _convert_apple_timestamp to_nanos
        dsimp only
        rw [if_neg hc1, if_pos hc2, if_neg h16, if_pos h]
        push_cast
        ring_nf
  · rintro ⟨h1, h2⟩
    have hc1 : ¬ raw ≤ 10 ^ 10 := by omega
    have hc2 : raw ≤ 10 ^ 16 := by omega
    have hc3 : ¬ raw > 10 ^ 16 := by omega
    have hc4 : ¬ raw > 10 ^ 13 := by omega
    unfold _convert_apple_timestamp to_nanos
    dsimp only
    rw [if_neg hc1, if_pos hc2, if_neg hc3, if_neg hc4, if_pos (by omega : raw > 10 ^ 10)]
    push_cast
    ring_nf

/-- C6 amended witness: `to_nanos_vs_convert` applied at `raw = 7` (seconds
band) and `raw = 10^12` (divergent band). -/
theorem to_nanos_vs_convert_witness :
    _convert_apple_timestamp (some 7) = some ((to_nanos 7 : ℚ) / 1000000000)
    ∧ _convert_apple_timestamp (some (10 ^ 12)) =
        some ((to_nanos (10 ^ 12) : ℚ) / (1000 * 1000000000)) :=
  ⟨(to_nanos_vs_convert 7).1 (by norm_num),
   (to_nanos_vs_convert (10 ^ 12)).2 (by norm_num)⟩

end C6

section C1

lemma split_loop_invariant (g : ℚ) (chat0 : Int) :
    ∀ (rest : List RawMsg) (convs : List ConvBlock) (cur : List RawMsg)
      (st lt : ℚ),
    cur ≠ [] →
    cur.head?.map RawMsg.ts = some st →
    cur.getLast?.map RawMsg.ts = some lt →
    cur.Chain' (fun a c => c.ts - a.ts ≤ g) →
    (∀ b ∈ convs, SegWF g b) →
    convs.Chain' (SegBd g) →
    (∀ bl ∈ convs.getLast?, ∀ m ∈ cur.head?, m.ts - bl.end_time > g) →
    (((_split_loop g chat0 convs cur st lt rest).map ConvBlock.messages).flatten
        = (convs.map ConvBlock.messages).flatten ++ cur ++ rest)
    ∧ (∀ b ∈ _split_loop g chat0 convs cur st lt rest, SegWF g b)
    ∧ (_split_loop g chat0 convs cur st lt rest).Chain' (SegBd g) := by
  intro rest
  induction rest with
  | nil =>
    intro convs cur st lt hne hhd hlast hchain hwf hbchain hbd
    simp only [_split_loop, if_pos hne]
    refine ⟨?_, ?_, ?_⟩
    · simp [List.flatten_append]
    · intro b hb
      rcases List.mem_append.mp hb with hb | hb
      · exact hwf b hb
      · rcases List.mem_singleton.mp hb with rfl
        exact ⟨hhd, hlast, hchain⟩
    · rw [List.chain'_append]
      refine ⟨hbchain, List.chain'_singleton _, ?_⟩
      intro x hx y hy
      simp only [List.head?_cons, Option.mem_def, Option.some.injEq] at hy
      subst hy
      intro m hm
      exact hbd x hx m hm
  | cons m rest ih =>
    intro convs cur st lt hne hhd hlast hchain hwf hbchain hbd
    by_cases hgap : m.ts - lt > g
    · -- gap found: the current block closes, a fresh one opens at m
      simp only [_split_loop, if_pos hgap, if_pos hne]
      have hres := ih (convs ++ [⟨cur, st, lt, m.chat_id⟩]) [m] m.ts m.ts
        (by simp) (by simp) (by simp) (List.chain'_singleton _)
        (by
          intro b hb
          rcases List.mem_append.mp hb with hb | hb
          · exact hwf b hb
          · rcases List.mem_singleton.mp hb with rfl
            exact ⟨hhd, hlast, hchain⟩)
        (by
          rw [List.chain'_append]
          refine ⟨hbchain, List.chain'_singleton _, ?_⟩
          intro x hx y hy
          simp only [List.head?_cons, Option.mem_def, Option.some.injEq] at hy
          subst hy
          intro mm hmm
          exact hbd x hx mm hmm)
        (by
          intro bl hbl mm hmm
          rw [List.getLast?_concat] at hbl
          simp only [Option.mem_def, Option.some.injEq, List.head?_cons] at hbl hmm
          subst hbl
          subst hmm
          simpa using hgap)
      refine ⟨?_, hres.2.1, hres.2.2⟩
      rw [hres.1]
      simp [List.flatten_append]
    · -- no gap: m joins the current block
      simp only [_split_loop, if_neg hgap]
      obtain ⟨c, cs, rfl⟩ := List.exists_cons_of_ne_nil hne
      have hres := ih convs ((c :: cs) ++ [m]) st m.ts
        (by simp) (by simpa using hhd) (by rw [List.getLast?_concat]; rfl)
        (by
          rw [List.chain'_append]
          refine ⟨hchain, List.chain'_singleton _, ?_⟩
          intro x hx y hy
          simp only [List.head?_cons, Option.mem_def, Option.some.injEq] at hy
          subst hy
          have hx2 : (c :: cs).getLast? = some x := Option.mem_def.mp hx
          rw [hx2] at hlast
          simp only [Option.map_some', Option.some.injEq] at hlast
          rw [hlast]
          linarith [not_lt.mp hgap])
        hwf hbchain
        (by
          intro bl hbl mm hmm
          simp only [List.cons_append, List.head?_cons, Option.mem_def,
            Option.some.injEq] at hmm
          subst hmm
          exact hbd bl hbl _ (by simp))
      refine ⟨?_, hres.2.1, hres.2.2⟩
      rw [hres.1]
      simp

lemma transformBlock_isSome_iff (g : ℚ) (b : ConvBlock)
    (hne : b.messages ≠ []) :
    (transformBlock g b).isSome ↔
      b.messages.any (fun m => m.sender_id.isSome) := by
  unfold transformBlock
  rw [if_neg hne]
  rcases hfind : b.messages.find? (fun m => m.sender_id.isSome) with - | im
  · rw [hfind]
    simp only [Option.isSome_none, Bool.false_eq_true, false_iff]
    intro hany
    rcases List.any_eq_true.mp hany with ⟨x, hx, hpx⟩
    have := List.find?_eq_none.mp hfind x hx
    exact this hpx
  · have him := List.find?_some hfind
    have hmem := List.mem_of_find?_eq_some hfind
    have hsender : im.sender_id.isSome := him
    rcases Option.isSome_iff_exists.mp hsender with ⟨v, hv⟩
    have hvmem : v ∈ b.messages.filterMap (fun m => m.sender_id) := by
      rw [List.mem_filterMap]
      exact ⟨im, hmem, hv⟩
    have hdne : (b.messages.filterMap (fun m => m.sender_id)).dedup ≠ [] := by
      intro h0
      have := (List.mem_dedup).mpr hvmem
      rw [h0] at this
      cases this
    rw [hfind]
    dsimp only
    rw [if_neg hdne]
    simp only [Option.isSome_some, true_iff]
    exact List.any_eq_true.mpr ⟨im, hmem, hsender⟩

/-- C1 counterexample: the claim asserts that a segment with no sender-bearing
message yields no conversation in *the reconciliation paths* that consume the
segmentation, but the backup fresh-split path
(`etl_conversations_fresh_split_compare` → `_replace_or_reuse_intervals`)
does not discard such a segment: with one sender-less message in an empty
store, it inserts a conversation row (while the live path's
`transform_conversations` discards the segment). -/
theorem split_senderless_backup_counterexample :
    (_replace_or_reuse_intervals 7
        (_split_into_conversations [⟨1, 7, none, 0⟩] 10800) 10800
        ⟨[], [⟨1, 7, 0, none, none⟩], 1⟩).convs ≠ []
    ∧ transform_conversations
        (_split_into_conversations [⟨1, 7, none, 0⟩] 10800) 10800 = [] := by
  constructor
  · decide
  · decide

/-- C1 amended: for every message list sorted ascending by timestamp and gap
threshold `g`, `_split_into_conversations` partitions the input in order
(the blocks' message lists concatenate back to the input, so two consecutive
messages land in different segments iff their gap strictly exceeds `g`: inside
a block consecutive gaps are `≤ g`, across adjacent blocks the gap is `> g`);
the first message begins the first segment, the final open segment is flushed,
and every segment's start and end times are its first and last message
timestamps. A segment with no sender-bearing message is discarded by the
*live* reconciliation path (`transform_conversations` yields no conversation
for it, and a conversation otherwise) — but, per the counterexample, not by
the backup fresh-split path. -/
theorem split_into_conversations_spec (msgs : List RawMsg) (g : ℚ)
    (hsorted : msgs.Chain' (fun a b => a.ts ≤ b.ts)) :
    (((_split_into_conversations msgs g).map ConvBlock.messages).flatten = msgs)
    ∧ (∀ b ∈ _split_into_conversations msgs g, SegWF g b)
    ∧ (_split_into_conversations msgs g).Chain' (SegBd g)
    ∧ (∀ m ms, msgs = m :: ms →
        ∃ b bs, _split_into_conversations msgs g = b :: bs ∧
          b.messages.head? = some m)
    ∧ (∀ b ∈ _split_into_conversations msgs g,
        ((transformBlock g b).isSome ↔
          b.messages.any (fun m => m.sender_id.isSome))) := by
  clear hsorted
  match msgs with
  | [] =>
    refine ⟨by simp [_split_into_conversations], ?_, ?_, ?_, ?_⟩
    · intro b hb
      simp [_split_into_conversations] at hb
    · simp [_split_into_conversations]
    · intro m ms heq
      cases heq
    · intro b hb
      simp [_split_into_conversations] at hb
  | m0 :: rest =>
    have hinv := split_loop_invariant g m0.chat_id rest [] [m0] m0.ts m0.ts
      (by simp) (by simp) (by simp) (List.chain'_singleton _)
      (by intro b hb; cases hb) List.chain'_nil
      (by intro bl hbl; cases hbl)
    have hsplit : _split_into_conversations (m0 :: rest) g =
        _split_loop g m0.chat_id [] [m0] m0.ts m0.ts rest := rfl
    have hflat :
        ((_split_into_conversations (m0 :: rest) g).map
          ConvBlock.messages).flatten = m0 :: rest := by
      rw [hsplit, hinv.1]; simp
    have hwf := hinv.2.1
    refine ⟨hflat, by rw [hsplit]; exact hwf, by rw [hsplit]; exact hinv.2.2,
      ?_, ?_⟩
    · intro m ms heq
      injection heq with h1 h2
      subst h1
      subst h2
      rcases hblocks : _split_into_conversations (m0 :: rest) g with _ | ⟨b, bs⟩
      · rw [hblocks] at hflat
        simp at hflat
      · refine ⟨b, bs, rfl, ?_⟩
        rw [hblocks] at hflat
        have hbwf := hwf b (by rw [← hsplit, hblocks]; exact List.mem_cons_self _ _)
        rcases hmsg : b.messages with _ | ⟨x, xs⟩
        · rcases hbwf with ⟨hh, -, -⟩
          rw [hmsg] at hh
          cases hh
        · rw [List.map_cons, List.flatten_cons, hmsg] at hflat
          simp only [List.cons_append] at hflat
          have h1 : x = m0 := by injection hflat
          rw [List.head?_cons, h1]
    · intro b hb
      have hbwf := hwf b (by rw [hsplit] at hb; exact hb)
      apply transformBlock_isSome_iff
      intro h0
      rcases hbwf with ⟨hh, -, -⟩
      rw [h0] at hh
      cases hh

/-- C1 amended witness: the segmentation/transform specification applied to a
concrete sorted two-message list (second message sender-less) with gap 50. -/
theorem split_into_conversations_spec_witness :
    ((_split_into_conversations
        [⟨1, 5, some 9, 0⟩, ⟨2, 5, none, 100⟩] 50).map
      ConvBlock.messages).flatten =
      [⟨1, 5, some 9, 0⟩, ⟨2, 5, none, 100⟩] :=
  (split_into_conversations_spec [⟨1, 5, some 9, 0⟩, ⟨2, 5, none, 100⟩] 50
    (List.chain'_cons.mpr ⟨by norm_num, List.chain'_singleton _⟩)).1

end C1

section C2

lemma alistGet?_alistSet_self {α β : Type} [DecidableEq α]
    (xs : List (α × β)) (k : α)
    (v : β) : alistGet? (alistSet xs k v) k = some v := by
  induction xs with
  | nil => simp [alistGet?, alistSet]
  | cons p t ih =>
    rcases p with ⟨k', v'⟩
    by_cases hk : k' = k
    · simp [alistSet, hk, alistGet?]
    · simp only [alistSet, if_neg hk]
      rw [alistGet?, List.find?_cons]
      have : (decide (k' = k)) = false := by simpa using hk
      rw [this]
      exact ih

/-- C2: one step of `load_conversations` appends to the chat's current most
recent conversation iff that conversation exists and
`0 ≤ segment.start − conversation.end ≤ gap_threshold` (inclusive lower
bound); appending updates the conversation row's end time and message count,
assigns its id to every message of the segment, advances the in-memory last
reference, and bumps `updated`; otherwise a fresh row is inserted with the
segment's fields (including its gap threshold), its messages attached, the
last reference replaced, and `imported` bumped. -/
theorem load_conversations_step_spec (st : LoadState) (conv : TransConv) :
    (can_append st conv = true ↔
      ∃ last, alistGet? st.lastByChat conv.chat_id = some last ∧
        0 ≤ conv.start_time - last.end_time ∧
        conv.start_time - last.end_time ≤ conv.gap_threshold)
    ∧ (∀ last, alistGet? st.lastByChat conv.chat_id = some last →
        can_append st conv = true →
          (load_step st conv).convRows = st.convRows.map (fun r =>
              if r.id = last.id then
                { r with end_time := conv.end_time,
                         message_count := r.message_count + conv.message_count }
              else r)
          ∧ (∀ m : Int, (load_step st conv).msgConv m =
              if m ∈ conv.message_ids then some last.id else st.msgConv m)
          ∧ alistGet? (load_step st conv).lastByChat conv.chat_id =
              some { id := last.id, end_time := conv.end_time,
                     message_count := last.message_count + conv.message_count }
          ∧ (load_step st conv).imported = st.imported
          ∧ (load_step st conv).updated = st.updated + 1
          ∧ (load_step st conv).nextConvId = st.nextConvId)
    ∧ (can_append st conv = false →
          (load_step st conv).convRows = st.convRows ++
            [{ id := st.nextConvId, chat_id := conv.chat_id,
               initiator_id := conv.initiator_id,
               start_time := conv.start_time, end_time := conv.end_time,
               message_count := conv.message_count,
               gap_threshold := conv.gap_threshold }]
          ∧ (∀ m : Int, (load_step st conv).msgConv m =
              if m ∈ conv.message_ids then some st.nextConvId
              else st.msgConv m)
          ∧ alistGet? (load_step st conv).lastByChat conv.chat_id =
              some { id := st.nextConvId, end_time := conv.end_time,
                     message_count := conv.message_count }
          ∧ (load_step st conv).imported = st.imported + 1
          ∧ (load_step st conv).updated = st.updated
          ∧ (load_step st conv).nextConvId = st.nextConvId + 1) := by
  refine ⟨?_, ?_, ?_⟩
  · unfold can_append
    rcases hlook : alistGet? st.lastByChat conv.chat_id with _ | last
    · simp
    · simp only [decide_eq_true_eq]
      constructor
      · intro h
        exact ⟨last, rfl, h⟩
      · rintro ⟨last', hl', h⟩
        obtain rfl : last = last' := Option.some.inj hl'
        exact h
  · intro last hlook hcan
    have hcond : 0 ≤ conv.start_time - last.end_time ∧
        conv.start_time - last.end_time ≤ conv.gap_threshold := by
      unfold can_append at hcan
      rw [hlook] at hcan
      exact of_decide_eq_true hcan
    unfold load_step
    rw [hlook]
    dsimp only
    rw [if_pos hcond]
    refine ⟨rfl, fun m => rfl, ?_, rfl, rfl, rfl⟩
    exact alistGet?_alistSet_self _ _ _
  · intro hcan
    unfold load_step
    rcases hlook : alistGet? st.lastByChat conv.chat_id with _ | last
    · exact ⟨rfl, fun m => rfl, alistGet?_alistSet_self _ _ _, rfl, rfl, rfl⟩
    · have hcond : ¬(0 ≤ conv.start_time - last.end_time ∧
          conv.start_time - last.end_time ≤ conv.gap_threshold) := by
        unfold can_append at hcan
        rw [hlook] at hcan
        exact of_decide_eq_false hcan
      dsimp only
      rw [if_neg hcond]
      exact ⟨rfl, fun m => rfl, alistGet?_alistSet_self _ _ _, rfl, rfl, rfl⟩

/-- C2 witness: the step specification applied to a concrete state whose chat
1 has a last conversation ending at 10, and a segment starting at 12 with gap
threshold 10800 (an append). -/
theorem load_conversations_step_spec_witness :
    (load_step
        { convRows := [], msgConv := fun _ => none,
          lastByChat := [(1, { id := 3, end_time := 10, message_count := 2 })],
          nextConvId := 4, imported := 0, updated := 0 }
        { chat_id := 1, initiator_id := some 9, start_time := 12,
          end_time := 20, message_count := 1, participant_ids := [9],
          message_ids := [42], gap_threshold := 10800 }).updated = 0 + 1 := by
  have h := (load_conversations_step_spec
      { convRows := [], msgConv := fun _ => none,
        lastByChat := [(1, { id := 3, end_time := 10, message_count := 2 })],
        nextConvId := 4, imported := 0, updated := 0 }
      { chat_id := 1, initiator_id := some 9, start_time := 12,
        end_time := 20, message_count := 1, participant_ids := [9],
        message_ids := [42], gap_threshold := 10800 }).2.1
      { id := 3, end_time := 10, message_count := 2 }
      (by norm_num [alistGet?]) (by norm_num [can_append, alistGet?])
  exact h.2.2.2.2.1

end C2

section C3

/-- C3: in the backup fresh-split path, a segment with an exact sorted
message-id match among the entry-state conversations of the chat causes no
write; otherwise exactly the conversations of the chat whose intervals
satisfy the inclusive overlap test `start ≤ segment.end ∧ end ≥ segment.start`
are deleted, their messages' conversation id nulled, and one fresh
conversation inserted with the segment's messages attached; consequently if
every fresh segment's message-id set equals some existing conversation's
(in particular if the fresh and existing segmentations agree as sets of
message-id sets) the whole run writes nothing. -/
theorem replace_or_reuse_intervals_spec (chat_id : Int) (g : ℚ)
    (st0 : BkState) (cmap : List (Int × List Int))
    (hcmap : cmap = conv_msg_map st0.msgs
      ((existingConvsOf st0 chat_id).map (fun c => c.id))) :
    (∀ (st : BkState) (block : ConvBlock),
      (∃ p ∈ cmap, p.2 = blockMsgIds block) →
        _replace_step chat_id g cmap st block = st)
    ∧ (∀ (st : BkState) (block : ConvBlock),
      (¬ ∃ p ∈ cmap, p.2 = blockMsgIds block) →
        (_replace_step chat_id g cmap st block).convs =
          st.convs.filter (fun c => ¬ overlapsBlock chat_id block c) ++
            [{ id := st.nextConvId, chat_id := chat_id,
               initiator_id :=
                 (match (blockMsgIds block).head? with
                  | none => none
                  | some fid => (st.msgs.find? (fun m => m.id = fid)).bind
                      (fun m => m.sender_id)),
               start_time := block.start_time, end_time := block.end_time,
               message_count := (blockMsgIds block).length,
               gap_threshold := g }]
        ∧ (_replace_step chat_id g cmap st block).msgs =
            st.msgs.map (fun m =>
              if m.id ∈ blockMsgIds block then
                { m with conversation_id := some st.nextConvId }
              else if (match m.conversation_id with
                       | some cid => decide (cid ∈
                           (st.convs.filter (overlapsBlock chat_id block)).map
                             (fun c => c.id))
                       | none => false) = true then
                { m with conversation_id := none }
              else m)
        ∧ (_replace_step chat_id g cmap st block).nextConvId =
            st.nextConvId + 1)
    ∧ (∀ new_blocks : List ConvBlock,
      (∀ b ∈ new_blocks, ∃ p ∈ cmap, p.2 = blockMsgIds b) →
        _replace_or_reuse_intervals chat_id new_blocks g st0 = st0) := by
  have hmatch : ∀ (st : BkState) (block : ConvBlock),
      (∃ p ∈ cmap, p.2 = blockMsgIds block) →
      _replace_step chat_id g cmap st block = st := by
    intro st block hex
    rcases hfind : cmap.find? (fun p => p.2 = blockMsgIds block) with _ | pr
    · exfalso
      rcases hex with ⟨p, hp, hpeq⟩
      have := List.find?_eq_none.mp hfind p hp
      simp [hpeq] at this
    · unfold _replace_step
      dsimp only
      rw [hfind]
  refine ⟨hmatch, ?_, ?_⟩
  · intro st block hex
    have hfind : cmap.find? (fun p => p.2 = blockMsgIds block) = none := by
      rw [List.find?_eq_none]
      intro p hp
      simp only [decide_eq_true_eq]
      intro hpeq
      exact hex ⟨p, hp, hpeq⟩
    unfold _replace_step
    dsimp only
    rw [hfind]
    refine ⟨rfl, ?_, rfl⟩
    by_cases hbne : blockMsgIds block ≠ []
    · rw [if_pos hbne, List.map_map]
      apply List.map_congr_left
      intro m hm
      by_cases hid : m.id ∈ blockMsgIds block
      · rcases hconv : m.conversation_id with _ | cid
        · simp [Function.comp, hconv, hid]
        · by_cases hcid : cid ∈
              (st.convs.filter (overlapsBlock chat_id block)).map (fun c => c.id)
          · simp [Function.comp, hconv, hid, hcid]
          · simp [Function.comp, hconv, hid, hcid]
      · rcases hconv : m.conversation_id with _ | cid
        · simp [Function.comp, hconv, hid]
        · by_cases hcid : cid ∈
              (st.convs.filter (overlapsBlock chat_id block)).map (fun c => c.id)
          · simp [Function.comp, hconv, hid, hcid]
          · simp [Function.comp, hconv, hid, hcid]
    · rw [if_neg hbne]
      push_neg at hbne
      apply List.map_congr_left
      intro m hm
      rw [hbne]
      simp
  · intro new_blocks hall
    unfold _replace_or_reuse_intervals
    rw [← hcmap]
    induction new_blocks with
    | nil => rfl
    | cons b bs ih =>
      rw [List.foldl_cons, hmatch st0 b (hall b (List.mem_cons_self _ _))]
      exact ih (fun b' hb' => hall b' (List.mem_cons_of_mem _ hb'))

/-- C3 witness: one sender-bearing message in chat 7 attached to an existing
conversation whose message set matches the fresh segmentation exactly: the
run writes nothing. -/
theorem replace_or_reuse_intervals_spec_witness :
    _replace_or_reuse_intervals 7
      (_split_into_conversations [⟨1, 7, some 2, 0⟩] 10800) 10800
      ⟨[⟨5, 7, some 2, 0, 0, 1, 10800⟩], [⟨1, 7, 0, some 2, some 5⟩], 6⟩ =
      ⟨[⟨5, 7, some 2, 0, 0, 1, 10800⟩], [⟨1, 7, 0, some 2, some 5⟩], 6⟩ := by
  apply (replace_or_reuse_intervals_spec 7 10800
      ⟨[⟨5, 7, some 2, 0, 0, 1, 10800⟩], [⟨1, 7, 0, some 2, some 5⟩], 6⟩
      (conv_msg_map [⟨1, 7, 0, some 2, some 5⟩]
        ((existingConvsOf
            ⟨[⟨5, 7, some 2, 0, 0, 1, 10800⟩], [⟨1, 7, 0, some 2, some 5⟩], 6⟩
            7).map (fun c => c.id)))
      rfl).2.2
  intro b hb
  have hblocks : _split_into_conversations [⟨1, 7, some 2, 0⟩] 10800 =
      [⟨[⟨1, 7, some 2, 0⟩], 0, 0, 7⟩] := by decide
  rw [hblocks] at hb
  rcases List.mem_singleton.mp hb with rfl
  exact ⟨(5, [1]), by decide, by decide⟩

end C3

section C4

lemma load_step_type_zero_frame (env : LoadMsgsEnv) (st : LoadMsgsState)
    (msg : TransformedMsg) (ht : msg.message_type = some 0) :
    (load_messages_step env st msg).reactions_to_insert =
      st.reactions_to_insert
    ∧ (load_messages_step env st msg).reactions_to_update =
      st.reactions_to_update := by
  unfold load_messages_step
  dsimp only
  repeat' split
  all_goals try exact ⟨rfl, rfl⟩
  all_goals simp_all

lemma load_step_type_nonzero_frame (env : LoadMsgsEnv) (st : LoadMsgsState)
    (msg : TransformedMsg) (ht : ¬ msg.message_type = some 0) :
    (load_messages_step env st msg).messages_to_insert =
      st.messages_to_insert
    ∧ (load_messages_step env st msg).messages_to_update =
      st.messages_to_update := by
  unfold load_messages_step
  dsimp only
  repeat' split
  all_goals try exact ⟨rfl, rfl⟩
  all_goals simp_all

lemma sync_step_reactions_frame (env : SyncEnv) (uid : Int) (s : SyncState)
    (stg : SyncStaging) (row : SrcRow)
    (ht : (transform_message (fixParticipants env row)).message_type = some 0
      ∨ (transform_message (fixParticipants env row)).message_type = none) :
    (sync_row_step env uid (s, stg) row).2.reactions_to_insert =
      stg.reactions_to_insert := by
  have hcondF :
      (match (transform_message (fixParticipants env row)).message_type with
       | some t => decide (t ≠ 0)
       | none => false) = false := by
    rcases ht with ht | ht <;> rw [ht] <;> simp
  unfold sync_row_step
  dsimp only
  rw [hcondF]
  repeat' split
  all_goals try rfl
  all_goals simp_all

lemma sync_step_messages_frame (env : SyncEnv) (uid : Int) (s : SyncState)
    (stg : SyncStaging) (row : SrcRow)
    (ht : ¬ ((transform_message (fixParticipants env row)).message_type = some 0
      ∨ (transform_message (fixParticipants env row)).message_type = none)) :
    (sync_row_step env uid (s, stg) row).2.messages_to_insert =
      stg.messages_to_insert := by
  push_neg at ht
  have hcondT :
      (match (transform_message (fixParticipants env row)).message_type with
       | some t => decide (t ≠ 0)
       | none => false) = true := by
    rcases hmt : (transform_message (fixParticipants env row)).message_type
      with _ | t
    · exact absurd hmt ht.2
    · have htz : t ≠ 0 := fun h0 => ht.1 (by rw [hmt, h0])
      simp [htz]
  unfold sync_row_step
  dsimp only
  rw [hcondT]
  repeat' split
  all_goals try rfl
  all_goals simp_all

/-- C4 counterexample: in the backup path (`load_messages`), a row with a
*null* message type is staged as a Reaction, not a Message, because the code
tests `msg['message_type'] != 0` and `None != 0` holds. -/
theorem load_messages_null_type_counterexample :
    (load_messages_step ⟨[("c".data, 1)], [], [], some 7⟩
        ⟨[], 1, [], [], [], [], [], [], [], 0, 0, []⟩
        ⟨"c".data, [], [], none, true, none, none, some "g".data, none,
         none⟩).reactions_to_insert ≠ []
    ∧ (load_messages_step ⟨[("c".data, 1)], [], [], some 7⟩
        ⟨[], 1, [], [], [], [], [], [], [], 0, 0, []⟩
        ⟨"c".data, [], [], none, true, none, none, some "g".data, none,
         none⟩).messages_to_insert = [] := by
  constructor
  · decide
  · decide

/-- C4 amended: in the live path (`sync_messages`) a row is staged as a
Reaction only if its message type is non-zero *and* non-null, and as a
Message only if its type is zero or null; in the backup path
(`load_messages`) a row is staged as a Reaction (insert or update) only if
its type differs from zero — null included — and as a Message only if its
type is exactly zero. -/
theorem message_classification_spec :
    (∀ (env : LoadMsgsEnv) (st : LoadMsgsState) (msg : TransformedMsg),
      ((load_messages_step env st msg).reactions_to_insert ≠
          st.reactions_to_insert ∨
       (load_messages_step env st msg).reactions_to_update ≠
          st.reactions_to_update) →
        msg.message_type ≠ some 0)
    ∧ (∀ (env : LoadMsgsEnv) (st : LoadMsgsState) (msg : TransformedMsg),
      ((load_messages_step env st msg).messages_to_insert ≠
          st.messages_to_insert ∨
       (load_messages_step env st msg).messages_to_update ≠
          st.messages_to_update) →
        msg.message_type = some 0)
    ∧ (∀ (env : SyncEnv) (uid : Int) (s : SyncState) (stg : SyncStaging)
        (row : SrcRow),
      (sync_row_step env uid (s, stg) row).2.reactions_to_insert ≠
          stg.reactions_to_insert →
        (transform_message (fixParticipants env row)).message_type ≠ some 0
        ∧ (transform_message (fixParticipants env row)).message_type ≠ none)
    ∧ (∀ (env : SyncEnv) (uid : Int) (s : SyncState) (stg : SyncStaging)
        (row : SrcRow),
      (sync_row_step env uid (s, stg) row).2.messages_to_insert ≠
          stg.messages_to_insert →
        ((transform_message (fixParticipants env row)).message_type = some 0
         ∨ (transform_message (fixParticipants env row)).message_type =
            none)) := by
  refine ⟨?_, ?_, ?_, ?_⟩
  · intro env st msg h ht
    rcases h with h | h
    · exact h (load_step_type_zero_frame env st msg ht).1
    · exact h (load_step_type_zero_frame env st msg ht).2
  · intro env st msg h
    by_contra ht
    rcases h with h | h
    · exact h (load_step_type_nonzero_frame env st msg ht).1
    · exact h (load_step_type_nonzero_frame env st msg ht).2
  · intro env uid s stg row h
    constructor
    · intro ht
      exact h (sync_step_reactions_frame env uid s stg row (Or.inl ht))
    · intro ht
      exact h (sync_step_reactions_frame env uid s stg row (Or.inr ht))
  · intro env uid s stg row h
    by_contra ht
    exact h (sync_step_messages_frame env uid s stg row ht)

/-- C4 amended witness: the backup step at a concrete null-type row stages a
reaction, so the specification's conclusion holds at that row. -/
theorem message_classification_spec_witness :
    (⟨"c".data, [], [], none, true, none, none, some "g".data, none, none⟩ :
      TransformedMsg).message_type ≠ some 0 :=
  message_classification_spec.1 ⟨[("c".data, 1)], [], [], some 7⟩
    ⟨[], 1, [], [], [], [], [], [], [], 0, 0, []⟩
    ⟨"c".data, [], [], none, true, none, none, some "g".data, none, none⟩
    (Or.inl (by decide))

end C4

section C8

/-- C8: on a database error, `fetch_new_messages` and
`fetch_new_attachments` reset the cached connection (so it is re-established
on the next call) and return an empty row list together with the *unchanged*
input watermark, propagating nothing to the caller. -/
theorem fetch_error_resets_connection (conn connA : Option Unit)
    (last lastA : Int) :
    fetch_new_messages conn (Except.error ()) last = (([], last), none)
    ∧ fetch_new_attachments connA (Except.error ()) lastA =
        (([], lastA), none) :=
  ⟨rfl, rfl⟩

end C8

section C9

lemma foldl_max_mem (d : Int) (ds : List Int) : ds.foldl max d ∈ d :: ds := by
  induction ds generalizing d with
  | nil => simp
  | cons x xs ih =>
    have h := ih (max d x)
    rw [List.foldl_cons]
    rcases List.mem_cons.mp h with h1 | h1
    · rcases max_choice d x with hm | hm <;> rw [h1, hm]
      · exact List.mem_cons_self _ _
      · exact List.mem_cons_of_mem _ (List.mem_cons_self _ _)
    · exact List.mem_cons_of_mem _ (List.mem_cons_of_mem _ h1)

lemma foldl_max_le (d : Int) (ds : List Int) :
    ∀ x ∈ d :: ds, x ≤ ds.foldl max d := by
  induction ds generalizing d with
  | nil =>
    intro x hx
    rcases List.mem_singleton.mp hx with rfl
    exact le_refl _
  | cons y ys ih =>
    intro x hx
    rw [List.foldl_cons]
    rcases List.mem_cons.mp hx with rfl | hx2
    · exact le_trans (le_max_left x y) (ih (max x y) _ (List.mem_cons_self _ _))
    · rcases List.mem_cons.mp hx2 with rfl | hx3
      · exact le_trans (le_max_right d x)
          (ih (max d x) _ (List.mem_cons_self _ _))
      · exact ih (max d y) x (List.mem_cons_of_mem _ hx3)

lemma mem_insertSorted {α : Type} (le : α → α → Bool) (a x : α)
    (l : List α) : x ∈ insertSorted le a l ↔ x = a ∨ x ∈ l := by
  induction l with
  | nil => simp [insertSorted]
  | cons y ys ih =>
    unfold insertSorted
    split
    · simp
    · rw [List.mem_cons, ih, List.mem_cons]
      tauto

lemma mem_isort {α : Type} (le : α → α → Bool) (x : α) (l : List α) :
    x ∈ isort le l ↔ x ∈ l := by
  induction l with
  | nil => simp [isort]
  | cons y ys ih =>
    unfold isort at ih ⊢
    rw [List.foldr_cons, mem_insertSorted, ih, List.mem_cons]

lemma mem_queryNewMessages (source : List SrcRow) (lw : Int) (m : SrcRow) :
    m ∈ queryNewMessages source lw ↔ m ∈ source ∧ lw < m.message_id := by
  unfold queryNewMessages
  rw [mem_isort, List.mem_filter]
  simp

lemma normalizeDates_map_id (l : List SrcRow) :
    (normalizeDates l).map (fun m => m.message_id) =
      l.map (fun m => m.message_id) := by
  unfold normalizeDates
  rw [List.map_map]
  apply List.map_congr_left
  intro m hm
  rcases hd : m.date with _ | d <;> simp [hd]

lemma normalizeDates_eq_nil (l : List SrcRow) :
    normalizeDates l = [] ↔ l = [] := by
  unfold normalizeDates
  simp

/-- C9 counterexample: a cycle whose (nonempty) batch imports no message —
here a single row whose chat cannot be resolved — advances the row-id
watermark but leaves the `apple_epoch_ns` watermark unchanged, even though
the batch contains a nanosecond timestamp above it; the claim's "the
timestamp watermark is set to the maximum of the nanosecond timestamps
observed in the batch" fails. -/
theorem watch_cycle_ts_watermark_counterexample :
    (watch_cycle ⟨[], 0⟩
        [⟨1, some ("g1".data), none, none, none, none, some 5, 0, none,
          some 0, none, none, 99, none⟩]
        emptySyncState (some ()) 0 0).2.2 = 0
    ∧ (0 : Int) <
        (((normalizeDates (queryNewMessages
            [⟨1, some ("g1".data), none, none, none, none, some 5, 0, none,
              some 0, none, none, 99, none⟩] 0)).filterMap
          (fun m => m.date)).headD 0)
    ∧ (watch_cycle ⟨[], 0⟩
        [⟨1, some ("g1".data), none, none, none, none, some 5, 0, none,
          some 0, none, none, 99, none⟩]
        emptySyncState (some ()) 0 0).2.1 = 1 := by
  refine ⟨by decide, by decide, by decide⟩

/-- C9 amended: after a successful cycle the persisted message-row-id
watermark is ≥ its previous value (`fetch_new_messages` returns the maximum
row id observed, or the input watermark when no rows are returned), and the
`apple_epoch_ns` watermark becomes the maximum nanosecond timestamp observed
in the batch *only when at least one message was imported* (and the batch
carries integer timestamps); when the batch imports nothing it is left
unchanged. -/
theorem watch_cycle_watermarks (env : SyncEnv) (source : List SrcRow)
    (s0 : SyncState) (conn : Option Unit) (m_wm ns_wm : Int) :
    (m_wm ≤ (watch_cycle env source s0 conn m_wm ns_wm).2.1)
    ∧ (∀ m ∈ queryNewMessages source m_wm,
        m.message_id ≤ (watch_cycle env source s0 conn m_wm ns_wm).2.1)
    ∧ (queryNewMessages source m_wm = [] →
        (watch_cycle env source s0 conn m_wm ns_wm).2.1 = m_wm)
    ∧ (∀ d ∈ (normalizeDates (queryNewMessages source m_wm)).filterMap
          (fun m => m.date),
        0 < (sync_messages env s0
            (normalizeDates (queryNewMessages source m_wm))).2.1 →
        d ≤ (watch_cycle env source s0 conn m_wm ns_wm).2.2
        ∧ (watch_cycle env source s0 conn m_wm ns_wm).2.2 ∈
            (normalizeDates (queryNewMessages source m_wm)).filterMap
              (fun m => m.date))
    ∧ ((sync_messages env s0
          (normalizeDates (queryNewMessages source m_wm))).2.1 = 0 →
        (watch_cycle env source s0 conn m_wm ns_wm).2.2 = ns_wm) := by
  rcases hq : queryNewMessages source m_wm with _ | ⟨r0, rs⟩
  · have hcy : watch_cycle env source s0 conn m_wm ns_wm =
        (s0, m_wm, ns_wm) := by
      unfold watch_cycle fetch_new_messages
      dsimp only
      rw [hq]
      rfl
    rw [hcy]
    refine ⟨le_refl _, ?_, fun _ => rfl, ?_, fun _ => rfl⟩
    · intro m hm
      cases hm
    · intro d hd
      simp [normalizeDates] at hd
  · -- nonempty batch
    have hmax : ∀ x ∈ (r0 :: rs).map (fun m => m.message_id),
        x ≤ ((rs.map (fun m => m.message_id)).foldl max r0.message_id) := by
      intro x hx
      rw [List.map_cons] at hx
      exact foldl_max_le _ _ x hx
    have hmaxmem : ((rs.map (fun m => m.message_id)).foldl max
        r0.message_id) ∈ (r0 :: rs).map (fun m => m.message_id) := by
      rw [List.map_cons]
      exact foldl_max_mem _ _
    have hne2 : normalizeDates (r0 :: rs) ≠ [] := by
      simp [normalizeDates]
    have hcy : watch_cycle env source s0 conn m_wm ns_wm =
        (let res := sync_messages env s0 (normalizeDates (r0 :: rs))
         let valid_dates := (normalizeDates (r0 :: rs)).filterMap
           (fun m => m.date)
         let ns_wm2 :=
           if res.2.1 > 0 then
             match valid_dates with
             | [] => ns_wm
             | d :: ds => ds.foldl max d
           else ns_wm
         (res.1, (rs.map (fun m => m.message_id)).foldl max r0.message_id,
          ns_wm2)) := by
      unfold watch_cycle fetch_new_messages
      dsimp only
      rw [hq]
      rw [if_neg hne2, List.map_cons]
    rw [hcy]
    dsimp only
    refine ⟨?_, ?_, ?_, ?_, ?_⟩
    · rcases List.mem_map.mp hmaxmem with ⟨m, hm, hid⟩
      have : m ∈ queryNewMessages source m_wm := by rw [hq]; exact hm
      have hgt := (mem_queryNewMessages source m_wm m).mp this
      rw [← hid]
      exact le_of_lt hgt.2
    · intro m hm
      exact hmax m.message_id (List.mem_map_of_mem _ hm)
    · intro h
      exact absurd h (List.cons_ne_nil _ _)
    · intro d hd himp
      rw [if_pos himp]
      rcases hvd : (normalizeDates (r0 :: rs)).filterMap (fun m => m.date)
        with _ | ⟨d0, ds0⟩
      · rw [hvd] at hd
        cases hd
      · rw [hvd] at hd
        rw [hvd]
        constructor
        · exact foldl_max_le d0 ds0 d hd
        · exact foldl_max_mem d0 ds0
    · intro h0
      rw [h0]
      simp

/-- C9 amended witness: a concrete successful cycle (one imported from-me
message with source timestamp 3 s) yields an `apple_epoch_ns` watermark that
is the batch maximum `3·10⁹` ns. -/
theorem watch_cycle_watermarks_witness :
    (3000000000 : Int) ≤
      (watch_cycle ⟨[], 0⟩
        [⟨1, some ("g1".data), some ("hi".data), none, none,
          some ("iMessage".data), some 3, 1, none, some 0, none, none, 5,
          some ("15551234567".data)⟩]
        emptySyncState (some ()) 0 0).2.2 :=
  ((watch_cycle_watermarks ⟨[], 0⟩
      [⟨1, some ("g1".data), some ("hi".data), none, none,
        some ("iMessage".data), some 3, 1, none, some 0, none, none, 5,
        some ("15551234567".data)⟩]
      emptySyncState (some ()) 0 0).2.2.2.1 3000000000 (by decide)
    (by decide)).1

end C9

section C7

/-! Association-list facts used throughout the idempotence proof. -/

lemma alistGet?_alistSet {α β : Type} [DecidableEq α] (l : List (α × β))
    (k' : α) (v : β) (k : α) :
    alistGet? (alistSet l k' v) k =
      if k' = k then some v else alistGet? l k := by
  induction l with
  | nil =>
    by_cases h : k' = k <;> simp [alistSet, alistGet?, List.find?, h]
  | cons p t ih =>
    rcases p with ⟨k0, v0⟩
    unfold alistSet
    by_cases h0 : k0 = k'
    · rw [if_pos h0]
      subst h0
      by_cases h : k0 = k
      · subst h
        simp [alistGet?, List.find?_cons]
      · simp [alistGet?, List.find?_cons, h]
    · rw [if_neg h0]
      by_cases hk : k0 = k
      · subst hk
        have h : ¬ (k' = k0) := fun e => h0 e.symm
        rw [if_neg h]
        simp [alistGet?, List.find?_cons]
      · simp [alistGet?, List.find?_cons, hk] at ih ⊢
        rw [ih]

lemma alistSet_ne_nil {α β : Type} [DecidableEq α] (l : List (α × β))
    (k : α) (v : β) : alistSet l k v ≠ [] := by
  cases l with
  | nil => simp [alistSet]
  | cons p t =>
    rcases p with ⟨k0, v0⟩
    unfold alistSet
    split <;> simp

lemma foldl_alistSet_ne_nil {α β : Type} [DecidableEq α]
    (ps : List (α × β)) (acc : List (α × β)) (hacc : acc ≠ []) :
    ps.foldl (fun a p => alistSet a p.1 p.2) acc ≠ [] := by
  induction ps generalizing acc with
  | nil => exact hacc
  | cons p t ih =>
    rw [List.foldl_cons]
    exact ih _ (alistSet_ne_nil _ _ _)

lemma alistOfPairs_eq_nil_iff {α β : Type} [DecidableEq α]
    (ps : List (α × β)) : alistOfPairs ps = [] ↔ ps = [] := by
  constructor
  · intro h
    cases ps with
    | nil => rfl
    | cons p t =>
      exfalso
      unfold alistOfPairs at h
      rw [List.foldl_cons] at h
      exact foldl_alistSet_ne_nil t _ (alistSet_ne_nil _ _ _) h
  · rintro rfl
    rfl

lemma alistGet?_foldl_alistSet_mono {α β : Type} [DecidableEq α]
    (ps : List (α × β)) (acc : List (α × β)) (k : α)
    (h : alistGet? acc k ≠ none) :
    alistGet? (ps.foldl (fun a p => alistSet a p.1 p.2) acc) k ≠ none := by
  induction ps generalizing acc with
  | nil => exact h
  | cons p t ih =>
    rw [List.foldl_cons]
    apply ih
    rw [alistGet?_alistSet]
    split
    · simp
    · exact h

lemma alistGet?_foldl_alistSet_of_mem {α β : Type} [DecidableEq α]
    (ps : List (α × β)) (acc : List (α × β)) (k : α)
    (h : k ∈ ps.map Prod.fst) :
    alistGet? (ps.foldl (fun a p => alistSet a p.1 p.2) acc) k ≠ none := by
  induction ps generalizing acc with
  | nil => cases h
  | cons p t ih =>
    rw [List.foldl_cons]
    rw [List.map_cons] at h
    rcases List.mem_cons.mp h with h1 | h1
    · apply alistGet?_foldl_alistSet_mono
      rw [alistGet?_alistSet]
      rw [if_pos h1.symm]
      simp
    · exact ih _ h1

lemma alistGet?_alistOfPairs_of_mem {α β : Type} [DecidableEq α]
    (ps : List (α × β)) (k : α) (h : k ∈ ps.map Prod.fst) :
    alistGet? (alistOfPairs ps) k ≠ none :=
  alistGet?_foldl_alistSet_of_mem ps [] k h

/-! Cache population: field preservation, flags, and the emptiness
relations. -/

lemma populate_caches_tables (s : SyncState) :
    (populate_caches s).chats = s.chats
    ∧ (populate_caches s).contacts = s.contacts
    ∧ (populate_caches s).contact_identifiers = s.contact_identifiers
    ∧ (populate_caches s).messages = s.messages
    ∧ (populate_caches s).reactions = s.reactions
    ∧ (populate_caches s).nextChatId = s.nextChatId
    ∧ (populate_caches s).nextContactId = s.nextContactId
    ∧ (populate_caches s).nextMessageId = s.nextMessageId := by
  unfold populate_caches get_contact_map get_reaction_guids
    get_message_guid_to_id_map get_chat_map
  repeat' split
  all_goals exact ⟨rfl, rfl, rfl, rfl, rfl, rfl, rfl, rfl⟩

lemma populate_caches_flags (s : SyncState) :
    (populate_caches s).chat_map_cache_populated = true
    ∧ (populate_caches s).message_guid_cache_populated = true
    ∧ (populate_caches s).reaction_guid_cache_populated = true
    ∧ (populate_caches s).contacts_cache_populated = true := by
  unfold populate_caches get_contact_map get_reaction_guids
    get_message_guid_to_id_map get_chat_map
  repeat' split
  all_goals simp_all

lemma contactMapEntries_filter_all (s : SyncState)
    (hint : ∀ ci ∈ s.contact_identifiers, ∃ c ∈ s.contacts,
      c.id = ci.contact_id) :
    s.contact_identifiers.filter (fun ci =>
      s.contacts.any (fun c => c.id = ci.contact_id)) =
      s.contact_identifiers := by
  apply List.filter_eq_self.mpr
  intro ci hci
  rcases hint ci hci with ⟨c, hc, hceq⟩
  exact List.any_eq_true.mpr ⟨c, hc, by simpa using hceq⟩

lemma populate_caches_CE (s : SyncState)
    (hint : ∀ ci ∈ s.contact_identifiers, ∃ c ∈ s.contacts,
      c.id = ci.contact_id) :
    ((populate_caches s).CHAT_MAP_CACHE = [] → (populate_caches s).chats = [])
    ∧ ((populate_caches s).MESSAGE_GUID_TO_ID_CACHE = [] →
        (populate_caches s).messages = [])
    ∧ ((populate_caches s).REACTION_GUID_CACHE = [] →
        (populate_caches s).reactions = [])
    ∧ ((populate_caches s).CONTACT_MAP_CACHE = [] →
        (populate_caches s).contact_identifiers = []) := by
  have hf := contactMapEntries_filter_all s hint
  unfold populate_caches get_contact_map get_reaction_guids
    get_message_guid_to_id_map get_chat_map
  repeat' split
  all_goals
    refine ⟨?_, ?_, ?_, ?_⟩ <;>
      intro h <;>
      simp_all [alistOfPairs_eq_nil_iff, chatMapEntries, msgGuidEntries,
        contactMapEntries, List.map_eq_nil_iff, List.dedup_eq_nil] <;>
      try exact List.eq_nil_iff_forall_not_mem.mpr (by assumption)

/-! Run-two phase no-ops: each phase of `sync_messages` leaves a state
satisfying the run-one postcondition untouched. -/

lemma get_chat_map_noop (s : SyncState)
    (hfl : s.chat_map_cache_populated = true)
    (hce : s.CHAT_MAP_CACHE = [] → s.chats = []) : get_chat_map s = s := by
  unfold get_chat_map
  split
  · next hcond =>
    rcases hcond with hc | hf
    · have hchats := hce hc
      cases s
      simp_all [chatMapEntries, alistOfPairs]
    · simp_all
  · rfl

lemma get_message_guid_to_id_map_noop (s : SyncState)
    (hfl : s.message_guid_cache_populated = true)
    (hce : s.MESSAGE_GUID_TO_ID_CACHE = [] → s.messages = []) :
    get_message_guid_to_id_map s = s := by
  unfold get_message_guid_to_id_map
  split
  · next hcond =>
    rcases hcond with hc | hf
    · have hmsgs := hce hc
      cases s
      simp_all [msgGuidEntries, alistOfPairs]
    · simp_all
  · rfl

lemma get_reaction_guids_noop (s : SyncState)
    (hfl : s.reaction_guid_cache_populated = true)
    (hce : s.REACTION_GUID_CACHE = [] → s.reactions = []) :
    get_reaction_guids s = s := by
  unfold get_reaction_guids
  split
  · next hcond =>
    rcases hcond with hc | hf
    · have hrs := hce hc
      cases s
      simp_all
    · simp_all
  · rfl

lemma get_contact_map_noop (s : SyncState)
    (hfl : s.contacts_cache_populated = true)
    (hce : s.CONTACT_MAP_CACHE = [] → s.contact_identifiers = []) :
    get_contact_map s = s := by
  unfold get_contact_map
  split
  · next hcond =>
    rcases hcond with hc | hf
    · have hcis := hce hc
      cases s
      simp_all [contactMapEntries, alistOfPairs]
    · simp_all
  · rfl

lemma populate_caches_noop (s : SyncState) (h : CachesReady s) :
    populate_caches s = s := by
  obtain ⟨h1, h2, h3, h4, e1, e2, e3, e4⟩ := h
  unfold populate_caches
  rw [get_chat_map_noop s h1 e1, get_message_guid_to_id_map_noop s h2 e2,
      get_reaction_guids_noop s h3 e3, get_contact_map_noop s h4 e4]

lemma ensure_user_noop (s : SyncState) (h : UserReady s) :
    (ensure_user s).1 = s := by
  obtain ⟨⟨c, hc, hme⟩, hpos⟩ := h
  unfold ensure_user
  cases hfind : s.contacts.find? (fun c => c.is_me) with
  | none =>
    exfalso
    have := List.find?_eq_none.mp hfind c hc
    simp [hme] at this
  | some c' =>
    have hmem := List.mem_of_find?_eq_some hfind
    have hne : ¬ c'.id = 0 := by
      have := hpos c' hmem
      omega
    simp [hne]

lemma collectUnknownSenders_eq_nil (s : SyncState) (rows : List SrcRow)
    (h : ∀ r ∈ rows, SenderKeyPresent s r) :
    collectUnknownSenders s rows = [] := by
  unfold collectUnknownSenders
  suffices hgen : ∀ rows' : List SrcRow, (∀ r ∈ rows', SenderKeyPresent s r) →
      ∀ acc : List (Str × Str),
      rows'.foldl (fun acc row =>
        match row.sender_identifier with
        | none => acc
        | some orig =>
          if row.is_from_me = 0 ∧ orig ≠ [] then
            let key := senderCacheKey orig
            if alistGet? s.CONTACT_MAP_CACHE key = none ∧
                alistGet? acc key = none
            then acc ++ [(key, orig)]
            else acc
          else acc) acc = acc by
    exact hgen rows h []
  intro rows'
  induction rows' with
  | nil => intro _ acc; rfl
  | cons r rs ih =>
    intro h' acc
    rw [List.foldl_cons]
    have hstep : (match r.sender_identifier with
        | none => acc
        | some orig =>
          if r.is_from_me = 0 ∧ orig ≠ [] then
            let key := senderCacheKey orig
            if alistGet? s.CONTACT_MAP_CACHE key = none ∧
                alistGet? acc key = none
            then acc ++ [(key, orig)]
            else acc
          else acc) = acc := by
      cases hs : r.sender_identifier with
      | none => rfl
      | some orig =>
        dsimp only
        split
        · next hcond =>
          rw [if_neg]
          rintro ⟨habs, -⟩
          exact h' r (List.mem_cons_self r rs) orig hs hcond.1 hcond.2 habs
        · rfl
    rw [hstep]
    exact ih (fun x hx => h' x (List.mem_cons_of_mem r hx)) acc

lemma batchCreateContacts_noop (s : SyncState) (rows : List SrcRow)
    (h : ∀ r ∈ rows, SenderKeyPresent s r) :
    batchCreateContacts s rows = s := by
  unfold batchCreateContacts
  dsimp only
  rw [collectUnknownSenders_eq_nil s rows h]
  rw [if_pos rfl]

lemma sync_row_step_noop (env : SyncEnv) (uid : Int) (s : SyncState)
    (stg : SyncStaging) (row : SrcRow) (h : RowNoop env s row) :
    ((sync_row_step env uid (s, stg) row).1,
      stagingCore (sync_row_step env uid (s, stg) row).2) =
      (s, stagingCore stg) := by
  unfold RowNoop at h
  obtain ⟨h1, h2⟩ := h
  unfold sync_row_step
  dsimp only
  rw [if_neg h1]
  dsimp only
  split
  · rfl
  · next hck =>
    split
    · rfl
    · next sender_id heq =>
      have hres : senderResolvesAt s (transform_message (fixParticipants env row)) := by
        by_cases hfm :
            (transform_message (fixParticipants env row)).is_from_me = true
        · exact Or.inl hfm
        · rw [if_neg hfm] at heq
          cases hlk : alistGet? s.CONTACT_MAP_CACHE
              (senderCacheKey
                (transform_message (fixParticipants env row)).sender_identifier) with
          | none => rw [hlk] at heq; cases heq
          | some sid =>
            rw [hlk] at heq
            dsimp only at heq
            by_cases hz : sid = 0
            · rw [if_pos hz] at heq; cases heq
            · exact Or.inr ⟨sid, hlk, hz⟩
      split
      · rfl
      · next gv hg =>
        split
        · rfl
        · next hgne =>
          have hfacts := h2 gv hg hgne hck hres
          split
          · next hcls =>
            split
            · rfl
            · next hnin => exact absurd (hfacts.1 hcls) hnin
          · next hcls =>
            split
            · next hnone =>
              exact absurd hnone (hfacts.2 (by simpa using hcls))
            · rfl

lemma sync_loop_noop (env : SyncEnv) (uid : Int) (s : SyncState)
    (rows : List SrcRow) (h : ∀ r ∈ rows, RowNoop env s r) :
    ∀ stg : SyncStaging,
      ((rows.foldl (sync_row_step env uid) (s, stg)).1,
        stagingCore (rows.foldl (sync_row_step env uid) (s, stg)).2) =
        (s, stagingCore stg) := by
  induction rows with
  | nil => intro stg; rfl
  | cons r rs ih =>
    intro stg
    rw [List.foldl_cons]
    have hr := sync_row_step_noop env uid s stg r (h r (List.mem_cons_self r rs))
    rw [Prod.mk.injEq] at hr
    obtain ⟨hx1, hx2⟩ := hr
    have hpair : sync_row_step env uid (s, stg) r =
        (s, (sync_row_step env uid (s, stg) r).2) := Prod.ext hx1 rfl
    rw [hpair]
    have ih' := ih (fun x hx => h x (List.mem_cons_of_mem r hx))
      ((sync_row_step env uid (s, stg) r).2)
    rw [Prod.mk.injEq] at ih'
    rw [Prod.mk.injEq]
    exact ⟨ih'.1, ih'.2.trans hx2⟩

lemma commitMessages_nil (s : SyncState) : commitMessages s [] = s := by
  unfold commitMessages
  rw [if_pos rfl]

lemma commitReactions_nil (s : SyncState) : commitReactions s [] = s := by
  unfold commitReactions
  rw [if_pos rfl]

lemma applyChatCounts_nil (s : SyncState) : applyChatCounts s [] = s := by
  unfold applyChatCounts
  rw [if_pos rfl]

lemma sync_messages_second_run (env : SyncEnv) (s : SyncState)
    (rows : List SrcRow) (hcr : CachesReady s) (hur : UserReady s)
    (hsk : ∀ r ∈ rows, SenderKeyPresent s r)
    (hrn : ∀ r ∈ rows, RowNoop env s r) :
    sync_messages env s rows = (s, 0, []) := by
  unfold sync_messages
  by_cases hrows : rows = []
  · rw [if_pos hrows]
  · rw [if_neg hrows]
    dsimp only
    rw [populate_caches_noop s hcr, ensure_user_noop s hur,
        batchCreateContacts_noop s rows hsk]
    have hloop := sync_loop_noop env
      (ensure_user s).2 s rows hrn emptyStaging
    rw [Prod.mk.injEq] at hloop
    obtain ⟨hl1, hl2⟩ := hloop
    have hm : (rows.foldl (sync_row_step env (ensure_user s).2)
        (s, emptyStaging)).2.messages_to_insert = [] := congrArg
      (fun p => p.1) hl2
    have hrx : (rows.foldl (sync_row_step env (ensure_user s).2)
        (s, emptyStaging)).2.reactions_to_insert = [] := congrArg
      (fun p => p.2.1) hl2
    have hcc : (rows.foldl (sync_row_step env (ensure_user s).2)
        (s, emptyStaging)).2.chat_counts = [] := congrArg
      (fun p => p.2.2.1) hl2
    have himp : (rows.foldl (sync_row_step env (ensure_user s).2)
        (s, emptyStaging)).2.imported = 0 := congrArg
      (fun p => p.2.2.2) hl2
    rw [hl1, hm, hrx, hcc, himp, commitMessages_nil, commitReactions_nil,
        applyChatCounts_nil]

/-! Per-row loop analysis: the resulting state, the frame it preserves, and
the ways it can touch the chat side. -/

lemma sync_row_step_result_state (env : SyncEnv) (uid : Int)
    (acc : SyncState × SyncStaging) (row : SrcRow) :
    (sync_row_step env uid acc row).1 =
      (if pyFalsyOptInt (alistGet? acc.1.CHAT_MAP_CACHE
            (transform_message (fixParticipants env row)).chat_identifier) =
            true
          ∧ (transform_message (fixParticipants env row)).chat_identifier ≠ []
       then (create_chat_if_missing env acc.1
         (transform_message (fixParticipants env row)).chat_identifier
         (match (fixParticipants env row).chat_participants with
          | some v => if v ≠ [] then decide ((splitSub [','] v).length > 1)
                      else false
          | none => false)).1
       else acc.1) := by
  unfold sync_row_step
  dsimp only
  repeat' split
  all_goals rfl

lemma sync_row_step_loopFrame (env : SyncEnv) (uid : Int)
    (acc : SyncState × SyncStaging) (row : SrcRow) :
    loopFrame (sync_row_step env uid acc row).1 = loopFrame acc.1 := by
  rw [sync_row_step_result_state]
  split
  · unfold create_chat_if_missing chat_db_check
    repeat' split
    all_goals rfl
  · rfl

lemma sync_row_step_chat_cases (env : SyncEnv) (uid : Int)
    (acc : SyncState × SyncStaging) (row : SrcRow) (hwf : ChatsWF acc.1) :
    ((sync_row_step env uid acc row).1.CHAT_MAP_CACHE = acc.1.CHAT_MAP_CACHE
      ∧ (sync_row_step env uid acc row).1.chats = acc.1.chats
      ∧ (sync_row_step env uid acc row).1.nextChatId = acc.1.nextChatId)
    ∨ (∃ k v, k ≠ [] ∧ 0 < v ∧
        (sync_row_step env uid acc row).1.CHAT_MAP_CACHE =
          alistSet acc.1.CHAT_MAP_CACHE k v
        ∧ (∀ c ∈ (sync_row_step env uid acc row).1.chats,
            c ∈ acc.1.chats ∨ 0 < c.id)
        ∧ ((sync_row_step env uid acc row).1.nextChatId = acc.1.nextChatId
           ∨ (sync_row_step env uid acc row).1.nextChatId =
               acc.1.nextChatId + 1)) := by
  obtain ⟨hpos, hnext⟩ := hwf
  rw [sync_row_step_result_state]
  split
  · next hcond =>
    unfold create_chat_if_missing
    split
    · next cid hlk =>
      split
      · left
        exact ⟨rfl, rfl, rfl⟩
      · unfold chat_db_check
        split
        · next c hfind =>
          right
          refine ⟨_, c.id, hcond.2, hpos c (List.mem_of_find?_eq_some hfind),
            rfl, fun c' hc' => Or.inl hc', Or.inl rfl⟩
        · right
          refine ⟨_, acc.1.nextChatId, hcond.2, hnext, rfl, ?_, Or.inr rfl⟩
          intro c' hc'
          rcases List.mem_append.mp hc' with hc' | hc'
          · exact Or.inl hc'
          · rcases List.mem_singleton.mp hc' with rfl
            exact Or.inr hnext
    · unfold chat_db_check
      split
      · next c hfind =>
        right
        refine ⟨_, c.id, hcond.2, hpos c (List.mem_of_find?_eq_some hfind),
          rfl, fun c' hc' => Or.inl hc', Or.inl rfl⟩
      · right
        refine ⟨_, acc.1.nextChatId, hcond.2, hnext, rfl, ?_, Or.inr rfl⟩
        intro c' hc'
        rcases List.mem_append.mp hc' with hc' | hc'
        · exact Or.inl hc'
        · rcases List.mem_singleton.mp hc' with rfl
          exact Or.inr hnext
  · left
    exact ⟨rfl, rfl, rfl⟩

lemma sync_row_step_ChatsWF (env : SyncEnv) (uid : Int)
    (acc : SyncState × SyncStaging) (row : SrcRow) (hwf : ChatsWF acc.1) :
    ChatsWF (sync_row_step env uid acc row).1 := by
  obtain ⟨hpos, hnext⟩ := hwf
  rcases sync_row_step_chat_cases env uid acc row ⟨hpos, hnext⟩ with
    ⟨_, hch, hn⟩ | ⟨k, v, _, _, _, hmem, hn⟩
  · refine ⟨?_, ?_⟩
    · intro c hc
      rw [hch] at hc
      exact hpos c hc
    · rw [hn]
      exact hnext
  · refine ⟨?_, ?_⟩
    · intro c hc
      rcases hmem c hc with hc' | hc'
      · exact hpos c hc'
      · exact hc'
    · rcases hn with hn | hn <;> rw [hn] <;> omega

lemma sync_row_step_truthy (env : SyncEnv) (uid : Int)
    (acc : SyncState × SyncStaging) (row : SrcRow) (k : Str)
    (hwf : ChatsWF acc.1)
    (h : pyFalsyOptInt (alistGet? acc.1.CHAT_MAP_CACHE k) = false) :
    pyFalsyOptInt
      (alistGet? (sync_row_step env uid acc row).1.CHAT_MAP_CACHE k) =
      false := by
  rcases sync_row_step_chat_cases env uid acc row hwf with
    ⟨hc, _, _⟩ | ⟨k', v, _, hv, hc, _, _⟩
  · rw [hc]
    exact h
  · rw [hc, alistGet?_alistSet]
    split
    · simp [pyFalsyOptInt]
      omega
    · exact h

lemma sync_row_step_nil_key (env : SyncEnv) (uid : Int)
    (acc : SyncState × SyncStaging) (row : SrcRow) (hwf : ChatsWF acc.1) :
    alistGet? (sync_row_step env uid acc row).1.CHAT_MAP_CACHE ([] : Str) =
      alistGet? acc.1.CHAT_MAP_CACHE ([] : Str) := by
  rcases sync_row_step_chat_cases env uid acc row hwf with
    ⟨hc, _, _⟩ | ⟨k', v, hk', _, hc, _, _⟩
  · rw [hc]
  · rw [hc, alistGet?_alistSet, if_neg hk']

lemma sync_row_step_CE_chat (env : SyncEnv) (uid : Int)
    (acc : SyncState × SyncStaging) (row : SrcRow) (hwf : ChatsWF acc.1)
    (hce : acc.1.CHAT_MAP_CACHE = [] → acc.1.chats = []) :
    (sync_row_step env uid acc row).1.CHAT_MAP_CACHE = [] →
      (sync_row_step env uid acc row).1.chats = [] := by
  rcases sync_row_step_chat_cases env uid acc row hwf with
    ⟨hc, hch, _⟩ | ⟨k', v, _, _, hc, _, _⟩
  · intro h
    rw [hch]
    exact hce (by rw [← hc]; exact h)
  · intro h
    rw [hc] at h
    exact absurd h (alistSet_ne_nil _ _ _)

lemma sync_row_step_msgs_mono (env : SyncEnv) (uid : Int)
    (acc : SyncState × SyncStaging) (row : SrcRow) (m : StagedMsg)
    (hm : m ∈ acc.2.messages_to_insert) :
    m ∈ (sync_row_step env uid acc row).2.messages_to_insert := by
  unfold sync_row_step
  dsimp only
  repeat' split
  all_goals simp_all [List.mem_append]

lemma sync_row_step_reacts_mono (env : SyncEnv) (uid : Int)
    (acc : SyncState × SyncStaging) (row : SrcRow) (r : ReactRow)
    (hr : r ∈ acc.2.reactions_to_insert) :
    r ∈ (sync_row_step env uid acc row).2.reactions_to_insert := by
  unfold sync_row_step
  dsimp only
  repeat' split
  all_goals simp_all [List.mem_append]

lemma loopFrame_fields {s s' : SyncState} (h : loopFrame s' = loopFrame s) :
    s'.contacts = s.contacts ∧ s'.contact_identifiers = s.contact_identifiers
    ∧ s'.messages = s.messages ∧ s'.reactions = s.reactions
    ∧ s'.nextContactId = s.nextContactId ∧ s'.nextMessageId = s.nextMessageId
    ∧ s'.CONTACT_MAP_CACHE = s.CONTACT_MAP_CACHE
    ∧ s'.MESSAGE_GUID_TO_ID_CACHE = s.MESSAGE_GUID_TO_ID_CACHE
    ∧ s'.REACTION_GUID_CACHE = s.REACTION_GUID_CACHE
    ∧ s'.chat_map_cache_populated = s.chat_map_cache_populated
    ∧ s'.message_guid_cache_populated = s.message_guid_cache_populated
    ∧ s'.reaction_guid_cache_populated = s.reaction_guid_cache_populated
    ∧ s'.contacts_cache_populated = s.contacts_cache_populated := by
  simp only [loopFrame, Prod.mk.injEq] at h
  exact h

lemma senderRes_some_resolves (s : SyncState) (t : TransformedMsg)
    (uid sender_id : Int)
    (h : (if t.is_from_me = true then some uid
          else
            match alistGet? s.CONTACT_MAP_CACHE
                (senderCacheKey t.sender_identifier) with
            | none => none
            | some sid => if sid = 0 then none else some sid) =
        some sender_id) :
    senderResolvesAt s t := by
  by_cases hfm : t.is_from_me = true
  · exact Or.inl hfm
  · rw [if_neg hfm] at h
    cases hlk : alistGet? s.CONTACT_MAP_CACHE
        (senderCacheKey t.sender_identifier) with
    | none => rw [hlk] at h; cases h
    | some sid =>
      rw [hlk] at h
      dsimp only at h
      by_cases hz : sid = 0
      · rw [if_pos hz] at h; cases h
      · exact Or.inr ⟨sid, hlk, hz⟩

lemma senderRes_none_not_resolves (s : SyncState) (t : TransformedMsg)
    (uid : Int)
    (h : (if t.is_from_me = true then some uid
          else
            match alistGet? s.CONTACT_MAP_CACHE
                (senderCacheKey t.sender_identifier) with
            | none => none
            | some sid => if sid = 0 then none else some sid) = none) :
    ¬ senderResolvesAt s t := by
  rintro (hfm | ⟨sid, hlk, hz⟩)
  · rw [if_pos hfm] at h
    cases h
  · by_cases hfm : t.is_from_me = true
    · rw [if_pos hfm] at h
      cases h
    · rw [if_neg hfm, hlk] at h
      dsimp only at h
      rw [if_neg hz] at h
      cases h

lemma create_chat_if_missing_spec (env : SyncEnv) (s : SyncState)
    (ident : Str) (g : Bool) (hwf : ChatsWF s) :
    loopFrame (create_chat_if_missing env s ident g).1 = loopFrame s
    ∧ ∃ v, v ≠ 0 ∧ (create_chat_if_missing env s ident g).2 = some v
        ∧ alistGet?
            (create_chat_if_missing env s ident g).1.CHAT_MAP_CACHE ident =
            some v := by
  obtain ⟨hpos, hnext⟩ := hwf
  unfold create_chat_if_missing chat_db_check
  split
  · next cid hlk =>
    split
    · next hnz => exact ⟨rfl, cid, hnz, rfl, hlk⟩
    · split
      · next c hfind =>
        refine ⟨rfl, c.id, ?_, rfl, alistGet?_alistSet_self _ _ _⟩
        have := hpos c (List.mem_of_find?_eq_some hfind)
        omega
      · refine ⟨rfl, s.nextChatId, ?_, rfl, alistGet?_alistSet_self _ _ _⟩
        omega
  · split
    · next c hfind =>
      refine ⟨rfl, c.id, ?_, rfl, alistGet?_alistSet_self _ _ _⟩
      have := hpos c (List.mem_of_find?_eq_some hfind)
      omega
    · refine ⟨rfl, s.nextChatId, ?_, rfl, alistGet?_alistSet_self _ _ _⟩
      omega

lemma sync_row_step_self (env : SyncEnv) (uid : Int)
    (acc : SyncState × SyncStaging) (row : SrcRow) (hwf : ChatsWF acc.1) :
    StepDone env (sync_row_step env uid acc row).1
      (sync_row_step env uid acc row).2 row := by
  unfold sync_row_step
  dsimp only
  split
  · next hcond =>
    obtain ⟨hfr, v, hv0, h2eq, hlkup⟩ := create_chat_if_missing_spec env acc.1
      (transform_message (fixParticipants env row)).chat_identifier
      (match (fixParticipants env row).chat_participants with
       | some v => if v ≠ [] then decide ((splitSub [','] v).length > 1)
                   else false
       | none => false) hwf
    have hC1 : ¬ (pyFalsyOptInt (alistGet?
        (create_chat_if_missing env acc.1
          (transform_message (fixParticipants env row)).chat_identifier
          (match (fixParticipants env row).chat_participants with
           | some v => if v ≠ [] then decide ((splitSub [','] v).length > 1)
                       else false
           | none => false)).1.CHAT_MAP_CACHE
        (transform_message (fixParticipants env row)).chat_identifier) = true
        ∧ (transform_message
            (fixParticipants env row)).chat_identifier ≠ []) := by
      rintro ⟨hf, -⟩
      rw [hlkup] at hf
      simp [pyFalsyOptInt] at hf
      exact hv0 hf
    split
    · next hskip =>
      rw [h2eq] at hskip
      simp [pyFalsyOptInt] at hskip
      exact absurd hskip hv0
    · next hnskip =>
      split
      · next heqn =>
        refine ⟨hC1, ?_⟩
        intro gv hg hgne htr hres
        exact absurd hres (senderRes_none_not_resolves _ _ uid heqn)
      · next sender_id heq =>
        split
        · next hgvn =>
          refine ⟨hC1, ?_⟩
          intro gv hg hgne htr hres
          rw [hgvn] at hg
          cases hg
        · next gv0 hgv =>
          split
          · next hnil =>
            refine ⟨hC1, ?_⟩
            intro gv hg hgne htr hres
            rw [hgv] at hg
            injection hg with hg
            subst hg
            exact absurd hnil hgne
          · next hnnil =>
            split
            · next hcls =>
              split
              · next hin =>
                refine ⟨hC1, ?_⟩
                intro gv hg hgne htr hres
                rw [hgv] at hg
                injection hg with hg
                subst hg
                refine ⟨fun _ => Or.inl hin, fun hf => ?_⟩
                rw [hf] at hcls
                cases hcls
              · next hnin =>
                refine ⟨hC1, ?_⟩
                intro gv hg hgne htr hres
                rw [hgv] at hg
                injection hg with hg
                subst hg
                refine ⟨fun _ => Or.inr ⟨_, List.mem_append_right _
                  (List.mem_singleton_self _), rfl⟩, fun hf => ?_⟩
                rw [hf] at hcls
                cases hcls
            · next hcls =>
              split
              · next hnone =>
                refine ⟨hC1, ?_⟩
                intro gv hg hgne htr hres
                rw [hgv] at hg
                injection hg with hg
                subst hg
                exact ⟨fun ht => absurd ht hcls,
                  fun _ => Or.inr ⟨_, List.mem_append_right _
                    (List.mem_singleton_self _), rfl⟩⟩
              · next hsome =>
                refine ⟨hC1, ?_⟩
                intro gv hg hgne htr hres
                rw [hgv] at hg
                injection hg with hg
                subst hg
                exact ⟨fun ht => absurd ht hcls, fun _ => Or.inl hsome⟩
  · next hcond =>
    dsimp only
    split
    · next hskip =>
      refine ⟨hcond, ?_⟩
      intro gv hg hgne htr hres
      exact absurd hskip htr
    · next hnskip =>
      split
      · next heqn =>
        refine ⟨hcond, ?_⟩
        intro gv hg hgne htr hres
        exact absurd hres (senderRes_none_not_resolves _ _ uid heqn)
      · next sender_id heq =>
        split
        · next hgvn =>
          refine ⟨hcond, ?_⟩
          intro gv hg hgne htr hres
          rw [hgvn] at hg
          cases hg
        · next gv0 hgv =>
          split
          · next hnil =>
            refine ⟨hcond, ?_⟩
            intro gv hg hgne htr hres
            rw [hgv] at hg
            injection hg with hg
            subst hg
            exact absurd hnil hgne
          · next hnnil =>
            split
            · next hcls =>
              split
              · next hin =>
                refine ⟨hcond, ?_⟩
                intro gv hg hgne htr hres
                rw [hgv] at hg
                injection hg with hg
                subst hg
                refine ⟨fun _ => Or.inl hin, fun hf => ?_⟩
                rw [hf] at hcls
                cases hcls
              · next hnin =>
                refine ⟨hcond, ?_⟩
                intro gv hg hgne htr hres
                rw [hgv] at hg
                injection hg with hg
                subst hg
                refine ⟨fun _ => Or.inr ⟨_, List.mem_append_right _
                  (List.mem_singleton_self _), rfl⟩, fun hf => ?_⟩
                rw [hf] at hcls
                cases hcls
            · next hcls =>
              split
              · next hnone =>
                refine ⟨hcond, ?_⟩
                intro gv hg hgne htr hres
                rw [hgv] at hg
                injection hg with hg
                subst hg
                exact ⟨fun ht => absurd ht hcls,
                  fun _ => Or.inr ⟨_, List.mem_append_right _
                    (List.mem_singleton_self _), rfl⟩⟩
              · next hsome =>
                refine ⟨hcond, ?_⟩
                intro gv hg hgne htr hres
                rw [hgv] at hg
                injection hg with hg
                subst hg
                exact ⟨fun ht => absurd ht hcls, fun _ => Or.inl hsome⟩

lemma sync_row_step_preserves_done (env : SyncEnv) (uid : Int)
    (acc : SyncState × SyncStaging) (row' row : SrcRow)
    (hwf : ChatsWF acc.1) (hd : StepDone env acc.1 acc.2 row) :
    StepDone env (sync_row_step env uid acc row').1
      (sync_row_step env uid acc row').2 row := by
  obtain ⟨d1, d2⟩ := hd
  have hfr := loopFrame_fields (sync_row_step_loopFrame env uid acc row')
  refine ⟨?_, ?_⟩
  · rintro ⟨hf, hne⟩
    have htr0 : pyFalsyOptInt (alistGet? acc.1.CHAT_MAP_CACHE
        (transform_message
          (fixParticipants env row)).chat_identifier) = false := by
      cases hb : pyFalsyOptInt (alistGet? acc.1.CHAT_MAP_CACHE
          (transform_message (fixParticipants env row)).chat_identifier) with
      | false => rfl
      | true => exact absurd ⟨hb, hne⟩ d1
    have hkeep := sync_row_step_truthy env uid acc row'
      (transform_message (fixParticipants env row)).chat_identifier hwf htr0
    rw [hkeep] at hf
    cases hf
  · intro gv hg hgne htr' hres'
    have htr : ¬ (pyFalsyOptInt (alistGet? acc.1.CHAT_MAP_CACHE
        (transform_message
          (fixParticipants env row)).chat_identifier) = true) := by
      by_cases hne :
          (transform_message (fixParticipants env row)).chat_identifier = []
      · rw [hne] at htr' ⊢
        rw [← sync_row_step_nil_key env uid acc row' hwf]
        exact htr'
      · intro hfal
        exact d1 ⟨hfal, hne⟩
    have hres : senderResolvesAt acc.1
        (transform_message (fixParticipants env row)) := by
      unfold senderResolvesAt at hres' ⊢
      rwa [hfr.2.2.2.2.2.2.1] at hres'
    have hfacts := d2 gv hg hgne htr hres
    constructor
    · intro ht
      rcases hfacts.1 ht with hin | ⟨rr, hrr, hrg⟩
      · left
        rw [hfr.2.2.2.2.2.2.2.2.1]
        exact hin
      · right
        exact ⟨rr, sync_row_step_reacts_mono env uid acc row' rr hrr, hrg⟩
    · intro ht
      rcases hfacts.2 ht with hin | ⟨m, hm, hmg⟩
      · left
        rw [hfr.2.2.2.2.2.2.2.1]
        exact hin
      · right
        exact ⟨m, sync_row_step_msgs_mono env uid acc row' m hm, hmg⟩

lemma sync_loop_loopFrame (env : SyncEnv) (uid : Int) (rows : List SrcRow) :
    ∀ acc : SyncState × SyncStaging,
      loopFrame (rows.foldl (sync_row_step env uid) acc).1 =
        loopFrame acc.1 := by
  induction rows with
  | nil => intro acc; rfl
  | cons r rs ih =>
    intro acc
    rw [List.foldl_cons]
    rw [ih (sync_row_step env uid acc r)]
    exact sync_row_step_loopFrame env uid acc r

lemma sync_loop_ChatsWF (env : SyncEnv) (uid : Int) (rows : List SrcRow) :
    ∀ acc : SyncState × SyncStaging, ChatsWF acc.1 →
      ChatsWF (rows.foldl (sync_row_step env uid) acc).1 := by
  induction rows with
  | nil => intro acc h; exact h
  | cons r rs ih =>
    intro acc h
    rw [List.foldl_cons]
    exact ih _ (sync_row_step_ChatsWF env uid acc r h)

lemma sync_loop_CE_chat (env : SyncEnv) (uid : Int) (rows : List SrcRow) :
    ∀ acc : SyncState × SyncStaging, ChatsWF acc.1 →
      (acc.1.CHAT_MAP_CACHE = [] → acc.1.chats = []) →
      ((rows.foldl (sync_row_step env uid) acc).1.CHAT_MAP_CACHE = [] →
        (rows.foldl (sync_row_step env uid) acc).1.chats = []) := by
  induction rows with
  | nil => intro acc _ hce; exact hce
  | cons r rs ih =>
    intro acc hwf hce
    rw [List.foldl_cons]
    exact ih _ (sync_row_step_ChatsWF env uid acc r hwf)
      (sync_row_step_CE_chat env uid acc r hwf hce)

lemma sync_loop_done (env : SyncEnv) (uid : Int) (rows : List SrcRow) :
    ∀ acc : SyncState × SyncStaging, ChatsWF acc.1 →
      (∀ r0, StepDone env acc.1 acc.2 r0 →
        StepDone env (rows.foldl (sync_row_step env uid) acc).1
          (rows.foldl (sync_row_step env uid) acc).2 r0)
      ∧ (∀ r ∈ rows,
          StepDone env (rows.foldl (sync_row_step env uid) acc).1
            (rows.foldl (sync_row_step env uid) acc).2 r) := by
  induction rows with
  | nil =>
    intro acc _
    exact ⟨fun r0 h => h, fun r hr => absurd hr (List.not_mem_nil r)⟩
  | cons r rs ih =>
    intro acc hwf
    rw [List.foldl_cons]
    have hwf' := sync_row_step_ChatsWF env uid acc r hwf
    have ih' := ih (sync_row_step env uid acc r) hwf'
    constructor
    · intro r0 h0
      exact ih'.1 r0 (sync_row_step_preserves_done env uid acc r r0 hwf h0)
    · intro x hx
      rcases List.mem_cons.mp hx with rfl | hx
      · exact ih'.1 x (sync_row_step_self env uid acc x hwf)
      · exact ih'.2 x hx

lemma userFrame_fields {s s' : SyncState} (h : userFrame s' = userFrame s) :
    s'.chats = s.chats ∧ s'.contact_identifiers = s.contact_identifiers
    ∧ s'.messages = s.messages ∧ s'.reactions = s.reactions
    ∧ s'.nextChatId = s.nextChatId ∧ s'.nextMessageId = s.nextMessageId
    ∧ s'.CONTACT_MAP_CACHE = s.CONTACT_MAP_CACHE
    ∧ s'.MESSAGE_GUID_TO_ID_CACHE = s.MESSAGE_GUID_TO_ID_CACHE
    ∧ s'.CHAT_MAP_CACHE = s.CHAT_MAP_CACHE
    ∧ s'.REACTION_GUID_CACHE = s.REACTION_GUID_CACHE
    ∧ s'.chat_map_cache_populated = s.chat_map_cache_populated
    ∧ s'.message_guid_cache_populated = s.message_guid_cache_populated
    ∧ s'.reaction_guid_cache_populated = s.reaction_guid_cache_populated
    ∧ s'.contacts_cache_populated = s.contacts_cache_populated := by
  simp only [userFrame, Prod.mk.injEq] at h
  exact h

lemma batchFrame_fields {s s' : SyncState} (h : batchFrame s' = batchFrame s) :
    s'.chats = s.chats ∧ s'.messages = s.messages
    ∧ s'.reactions = s.reactions ∧ s'.nextChatId = s.nextChatId
    ∧ s'.nextMessageId = s.nextMessageId
    ∧ s'.MESSAGE_GUID_TO_ID_CACHE = s.MESSAGE_GUID_TO_ID_CACHE
    ∧ s'.CHAT_MAP_CACHE = s.CHAT_MAP_CACHE
    ∧ s'.REACTION_GUID_CACHE = s.REACTION_GUID_CACHE
    ∧ s'.chat_map_cache_populated = s.chat_map_cache_populated
    ∧ s'.message_guid_cache_populated = s.message_guid_cache_populated
    ∧ s'.reaction_guid_cache_populated = s.reaction_guid_cache_populated
    ∧ s'.contacts_cache_populated = s.contacts_cache_populated := by
  simp only [batchFrame, Prod.mk.injEq] at h
  exact h

lemma commitMsgFrame_fields {s s' : SyncState}
    (h : commitMsgFrame s' = commitMsgFrame s) :
    s'.chats = s.chats ∧ s'.contacts = s.contacts
    ∧ s'.contact_identifiers = s.contact_identifiers
    ∧ s'.reactions = s.reactions ∧ s'.nextChatId = s.nextChatId
    ∧ s'.nextContactId = s.nextContactId
    ∧ s'.CONTACT_MAP_CACHE = s.CONTACT_MAP_CACHE
    ∧ s'.CHAT_MAP_CACHE = s.CHAT_MAP_CACHE
    ∧ s'.REACTION_GUID_CACHE = s.REACTION_GUID_CACHE
    ∧ s'.chat_map_cache_populated = s.chat_map_cache_populated
    ∧ s'.message_guid_cache_populated = s.message_guid_cache_populated
    ∧ s'.reaction_guid_cache_populated = s.reaction_guid_cache_populated
    ∧ s'.contacts_cache_populated = s.contacts_cache_populated := by
  simp only [commitMsgFrame, Prod.mk.injEq] at h
  exact h

lemma commitReactFrame_fields {s s' : SyncState}
    (h : commitReactFrame s' = commitReactFrame s) :
    s'.chats = s.chats ∧ s'.contacts = s.contacts
    ∧ s'.contact_identifiers = s.contact_identifiers
    ∧ s'.messages = s.messages ∧ s'.nextChatId = s.nextChatId
    ∧ s'.nextContactId = s.nextContactId
    ∧ s'.nextMessageId = s.nextMessageId
    ∧ s'.CONTACT_MAP_CACHE = s.CONTACT_MAP_CACHE
    ∧ s'.MESSAGE_GUID_TO_ID_CACHE = s.MESSAGE_GUID_TO_ID_CACHE
    ∧ s'.CHAT_MAP_CACHE = s.CHAT_MAP_CACHE
    ∧ s'.chat_map_cache_populated = s.chat_map_cache_populated
    ∧ s'.message_guid_cache_populated = s.message_guid_cache_populated
    ∧ s'.reaction_guid_cache_populated = s.reaction_guid_cache_populated
    ∧ s'.contacts_cache_populated = s.contacts_cache_populated := by
  simp only [commitReactFrame, Prod.mk.injEq] at h
  exact h

lemma chatCountsFrame_fields {s s' : SyncState}
    (h : chatCountsFrame s' = chatCountsFrame s) :
    s'.contacts = s.contacts
    ∧ s'.contact_identifiers = s.contact_identifiers
    ∧ s'.messages = s.messages ∧ s'.reactions = s.reactions
    ∧ s'.nextChatId = s.nextChatId ∧ s'.nextContactId = s.nextContactId
    ∧ s'.nextMessageId = s.nextMessageId
    ∧ s'.CONTACT_MAP_CACHE = s.CONTACT_MAP_CACHE
    ∧ s'.MESSAGE_GUID_TO_ID_CACHE = s.MESSAGE_GUID_TO_ID_CACHE
    ∧ s'.CHAT_MAP_CACHE = s.CHAT_MAP_CACHE
    ∧ s'.REACTION_GUID_CACHE = s.REACTION_GUID_CACHE
    ∧ s'.chat_map_cache_populated = s.chat_map_cache_populated
    ∧ s'.message_guid_cache_populated = s.message_guid_cache_populated
    ∧ s'.reaction_guid_cache_populated = s.reaction_guid_cache_populated
    ∧ s'.contacts_cache_populated = s.contacts_cache_populated := by
  simp only [chatCountsFrame, Prod.mk.injEq] at h
  exact h

lemma ensure_user_spec (s : SyncState) :
    userFrame (ensure_user s).1 = userFrame s
    ∧ (∀ c ∈ s.contacts, c ∈ (ensure_user s).1.contacts)
    ∧ (∃ c ∈ (ensure_user s).1.contacts, c.is_me = true)
    ∧ ((∀ c ∈ s.contacts, 0 < c.id) → 0 < s.nextContactId →
        (∀ c ∈ (ensure_user s).1.contacts, 0 < c.id)
        ∧ 0 < (ensure_user s).1.nextContactId) := by
  unfold ensure_user ensure_user.mkMeContact
  cases hfind : s.contacts.find? (fun c => c.is_me) with
  | none =>
    dsimp only
    refine ⟨rfl, fun c hc => List.mem_append_left _ hc,
      ⟨_, List.mem_append_right _ (List.mem_singleton_self _), rfl⟩,
      fun hpos hnext => ⟨?_, by omega⟩⟩
    intro c hc
    rcases List.mem_append.mp hc with hc | hc
    · exact hpos c hc
    · rcases List.mem_singleton.mp hc with rfl
      exact hnext
  | some c' =>
    dsimp only
    by_cases hz : c'.id = 0
    · rw [if_pos hz]
      dsimp only
      refine ⟨rfl, fun c hc => List.mem_append_left _ hc,
        ⟨_, List.mem_append_right _ (List.mem_singleton_self _), rfl⟩,
        fun hpos hnext => ⟨?_, by omega⟩⟩
      intro c hc
      rcases List.mem_append.mp hc with hc | hc
      · exact hpos c hc
      · rcases List.mem_singleton.mp hc with rfl
        exact hnext
    · rw [if_neg hz]
      exact ⟨rfl, fun c hc => hc,
        ⟨c', List.mem_of_find?_eq_some hfind, List.find?_some hfind⟩,
        fun hpos hnext => ⟨hpos, hnext⟩⟩

lemma alistGet?_ne_none_mem {α β : Type} [DecidableEq α]
    (l : List (α × β)) (k : α) (h : alistGet? l k ≠ none) :
    k ∈ l.map Prod.fst := by
  unfold alistGet? at h
  cases hf : l.find? (fun p => p.1 = k) with
  | none => rw [hf] at h; simp at h
  | some p =>
    have hp := List.find?_some hf
    simp only [decide_eq_true_eq] at hp
    exact hp ▸ List.mem_map_of_mem Prod.fst (List.mem_of_find?_eq_some hf)

lemma bulkInsertContacts_spec (names : List Str) :
    ∀ s : SyncState,
      userFrame (bulkInsertContacts s names) = userFrame s
      ∧ (∀ c ∈ s.contacts, c ∈ (bulkInsertContacts s names).contacts)
      ∧ (∀ name ∈ names, ∃ c ∈ (bulkInsertContacts s names).contacts,
          c.name = name ∧ c.data_source = some liveSyncSrc)
      ∧ ((∀ c ∈ s.contacts, 0 < c.id) → 0 < s.nextContactId →
          (∀ c ∈ (bulkInsertContacts s names).contacts, 0 < c.id)
          ∧ 0 < (bulkInsertContacts s names).nextContactId) := by
  induction names with
  | nil =>
    intro s
    exact ⟨rfl, fun c hc => hc, fun name hn => absurd hn (List.not_mem_nil _),
      fun hpos hnext => ⟨hpos, hnext⟩⟩
  | cons n ns ih =>
    intro s
    unfold bulkInsertContacts
    rw [List.foldl_cons]
    have ih' := ih ({ s with
      contacts := s.contacts ++ [⟨s.nextContactId, n, false, some liveSyncSrc⟩],
      nextContactId := s.nextContactId + 1 })
    unfold bulkInsertContacts at ih'
    refine ⟨ih'.1, ?_, ?_, ?_⟩
    · intro c hc
      exact ih'.2.1 c (List.mem_append_left _ hc)
    · intro name hn
      rcases List.mem_cons.mp hn with rfl | hn
      · exact ⟨_, ih'.2.1 _ (List.mem_append_right _
          (List.mem_singleton_self _)), rfl, rfl⟩
      · exact ih'.2.2.1 name hn
    · intro hpos hnext
      refine ih'.2.2.2 ?_ (by dsimp only; omega)
      intro c hc
      rcases List.mem_append.mp hc with hc | hc
      · exact hpos c hc
      · rcases List.mem_singleton.mp hc with rfl
        exact hnext

lemma insertCIConflictIgnore_spec (rows : List ContactIdentRow) :
    ∀ s : SyncState,
      (insertCIConflictIgnore s rows).contacts = s.contacts
      ∧ (insertCIConflictIgnore s rows).nextContactId = s.nextContactId
      ∧ (insertCIConflictIgnore s rows).CONTACT_MAP_CACHE =
          s.CONTACT_MAP_CACHE
      ∧ batchFrame (insertCIConflictIgnore s rows) = batchFrame s := by
  induction rows with
  | nil => intro s; exact ⟨rfl, rfl, rfl, rfl⟩
  | cons r rs ih =>
    intro s
    unfold insertCIConflictIgnore
    rw [List.foldl_cons]
    split
    · have ih' := ih s
      unfold insertCIConflictIgnore at ih'
      exact ih'
    · have ih' := ih { s with
        contact_identifiers := s.contact_identifiers ++ [r] }
      unfold insertCIConflictIgnore at ih'
      exact ih'

lemma contactCacheFold_spec (retrieved : List (Str × Int))
    (unknowns : List (Str × Str)) :
    ∀ s : SyncState,
      (unknowns.foldl (fun st u =>
          match alistGet? retrieved u.2 with
          | some cid =>
            { st with
              CONTACT_MAP_CACHE := alistSet st.CONTACT_MAP_CACHE u.1 cid }
          | none => st) s).contacts = s.contacts
      ∧ (unknowns.foldl (fun st u =>
          match alistGet? retrieved u.2 with
          | some cid =>
            { st with
              CONTACT_MAP_CACHE := alistSet st.CONTACT_MAP_CACHE u.1 cid }
          | none => st) s).contact_identifiers = s.contact_identifiers
      ∧ (unknowns.foldl (fun st u =>
          match alistGet? retrieved u.2 with
          | some cid =>
            { st with
              CONTACT_MAP_CACHE := alistSet st.CONTACT_MAP_CACHE u.1 cid }
          | none => st) s).nextContactId = s.nextContactId
      ∧ batchFrame (unknowns.foldl (fun st u =>
          match alistGet? retrieved u.2 with
          | some cid =>
            { st with
              CONTACT_MAP_CACHE := alistSet st.CONTACT_MAP_CACHE u.1 cid }
          | none => st) s) = batchFrame s
      ∧ (∀ k, alistGet? s.CONTACT_MAP_CACHE k ≠ none →
          alistGet? (unknowns.foldl (fun st u =>
            match alistGet? retrieved u.2 with
            | some cid =>
              { st with
                CONTACT_MAP_CACHE := alistSet st.CONTACT_MAP_CACHE u.1 cid }
            | none => st) s).CONTACT_MAP_CACHE k ≠ none)
      ∧ ((∀ u ∈ unknowns, alistGet? retrieved u.2 ≠ none) →
          ∀ k, k ∈ unknowns.map Prod.fst →
            alistGet? (unknowns.foldl (fun st u =>
              match alistGet? retrieved u.2 with
              | some cid =>
                { st with
                  CONTACT_MAP_CACHE := alistSet st.CONTACT_MAP_CACHE u.1 cid }
              | none => st) s).CONTACT_MAP_CACHE k ≠ none) := by
  induction unknowns with
  | nil =>
    intro s
    exact ⟨rfl, rfl, rfl, rfl, fun k h => h,
      fun _ k hk => absurd hk (List.not_mem_nil _)⟩
  | cons u us ih =>
    intro s
    rw [List.foldl_cons]
    cases hret : alistGet? retrieved u.2 with
    | none =>
      dsimp only
      have ih' := ih s
      refine ⟨ih'.1, ih'.2.1, ih'.2.2.1, ih'.2.2.2.1, ih'.2.2.2.2.1, ?_⟩
      intro hall k hk
      rw [List.map_cons] at hk
      rcases List.mem_cons.mp hk with hk' | hk'
      · exact absurd hret (hall u (List.mem_cons_self u us))
      · exact ih'.2.2.2.2.2 (fun x hx => hall x (List.mem_cons_of_mem u hx))
          k hk'
    | some cid =>
      dsimp only
      have ih' := ih { s with
        CONTACT_MAP_CACHE := alistSet s.CONTACT_MAP_CACHE u.1 cid }
      refine ⟨ih'.1, ih'.2.1, ih'.2.2.1, ih'.2.2.2.1, ?_, ?_⟩
      · intro k h
        apply ih'.2.2.2.2.1
        dsimp only
        rw [alistGet?_alistSet]
        split
        · simp
        · exact h
      · intro hall k hk
        rw [List.map_cons] at hk
        rcases List.mem_cons.mp hk with hk' | hk'
        · apply ih'.2.2.2.2.1
          dsimp only
          rw [hk', alistGet?_alistSet_self]
          simp
        · exact ih'.2.2.2.2.2
            (fun x hx => hall x (List.mem_cons_of_mem u hx)) k hk'

lemma collect_covers (s : SyncState) (rows : List SrcRow) (r : SrcRow)
    (hr : r ∈ rows) (orig : Str) (hs : r.sender_identifier = some orig)
    (hfm : r.is_from_me = 0) (hne : orig ≠ [])
    (habs : alistGet? s.CONTACT_MAP_CACHE (senderCacheKey orig) = none) :
    senderCacheKey orig ∈ (collectUnknownSenders s rows).map Prod.fst := by
  unfold collectUnknownSenders
  suffices hgen : ∀ rows' : List SrcRow, ∀ acc : List (Str × Str),
      (senderCacheKey orig ∈ acc.map Prod.fst ∨ r ∈ rows') →
      senderCacheKey orig ∈ (rows'.foldl (fun acc row =>
        match row.sender_identifier with
        | none => acc
        | some orig =>
          if row.is_from_me = 0 ∧ orig ≠ [] then
            let key := senderCacheKey orig
            if alistGet? s.CONTACT_MAP_CACHE key = none ∧
                alistGet? acc key = none
            then acc ++ [(key, orig)]
            else acc
          else acc) acc).map Prod.fst by
    exact hgen rows [] (Or.inr hr)
  intro rows'
  induction rows' with
  | nil =>
    intro acc h
    rcases h with h | h
    · exact h
    · exact absurd h (List.not_mem_nil r)
  | cons x xs ih =>
    intro acc h
    rw [List.foldl_cons]
    apply ih
    rcases h with h | h
    · left
      cases hxs : x.sender_identifier with
      | none => exact h
      | some o =>
        dsimp only
        split
        · split
          · rw [List.map_append]
            exact List.mem_append_left _ h
          · exact h
        · exact h
    · rcases List.mem_cons.mp h with rfl | h
      · left
        rw [hs]
        dsimp only
        rw [if_pos ⟨hfm, hne⟩]
        by_cases hacc : alistGet? acc (senderCacheKey orig) = none
        · rw [if_pos ⟨habs, hacc⟩, List.map_append]
          exact List.mem_append_right _ (by simp)
        · rw [if_neg (fun hc => hacc hc.2)]
          exact alistGet?_ne_none_mem acc _ hacc
      · right
        exact h

lemma batchCreateContacts_spec (s : SyncState) (rows : List SrcRow)
    (hce : s.CONTACT_MAP_CACHE = [] → s.contact_identifiers = []) :
    batchFrame (batchCreateContacts s rows) = batchFrame s
    ∧ (∀ c ∈ s.contacts, c ∈ (batchCreateContacts s rows).contacts)
    ∧ ((∀ c ∈ s.contacts, 0 < c.id) → 0 < s.nextContactId →
        (∀ c ∈ (batchCreateContacts s rows).contacts, 0 < c.id)
        ∧ 0 < (batchCreateContacts s rows).nextContactId)
    ∧ (∀ k, alistGet? s.CONTACT_MAP_CACHE k ≠ none →
        alistGet? (batchCreateContacts s rows).CONTACT_MAP_CACHE k ≠ none)
    ∧ (∀ r ∈ rows, SenderKeyPresent (batchCreateContacts s rows) r)
    ∧ ((batchCreateContacts s rows).CONTACT_MAP_CACHE = [] →
        (batchCreateContacts s rows).contact_identifiers = []) := by
  unfold batchCreateContacts
  dsimp only
  by_cases hunk : collectUnknownSenders s rows = []
  · rw [if_pos hunk]
    refine ⟨rfl, fun c hc => hc, fun hpos hnext => ⟨hpos, hnext⟩,
      fun k h => h, ?_, hce⟩
    intro r hr orig hso hfm hne
    by_cases habs : alistGet? s.CONTACT_MAP_CACHE (senderCacheKey orig) = none
    · have hcov := collect_covers s rows r hr orig hso hfm hne habs
      rw [hunk] at hcov
      exact absurd hcov (List.not_mem_nil _)
    · exact habs
  · rw [if_neg hunk]
    set U := collectUnknownSenders s rows with hU
    set N := (U.map (fun u => u.2)).dedup with hN
    set S1 := bulkInsertContacts s N with hS1
    set R := retrievedInfo S1 N with hR
    set S2 := U.foldl (fun st u =>
      match alistGet? R u.2 with
      | some cid =>
        { st with CONTACT_MAP_CACHE := alistSet st.CONTACT_MAP_CACHE u.1 cid }
      | none => st) S1 with hS2
    set CI := U.foldl (fun acc u =>
      match alistGet? R u.2 with
      | some cid => acc ++ [⟨cid, u.2, identType u.2, true⟩]
      | none => acc) ([] : List ContactIdentRow) with hCI
    have hbulk := bulkInsertContacts_spec N s
    have hbf := userFrame_fields hbulk.1
    have hhits : ∀ u ∈ U, alistGet? R u.2 ≠ none := by
      intro u hu
      have hn : u.2 ∈ N := List.mem_dedup.mpr (List.mem_map_of_mem _ hu)
      obtain ⟨c, hcmem, hcname, hcsrc⟩ := hbulk.2.2.1 u.2 hn
      rw [hR]
      unfold retrievedInfo
      apply alistGet?_alistOfPairs_of_mem
      rw [List.map_map]
      refine List.mem_map.mpr ⟨c, List.mem_filter.mpr ⟨hcmem, ?_⟩, hcname⟩
      simp only [decide_eq_true_eq]
      rw [hcname]
      exact ⟨hn, hcsrc⟩
    have hcf := contactCacheFold_spec R U S1
    rw [← hS2] at hcf
    have hci := insertCIConflictIgnore_spec CI S2
    have hb1 : batchFrame S1 = batchFrame s := by
      rw [hS1]
      unfold batchFrame
      rw [hbf.1, hbf.2.2.1, hbf.2.2.2.1, hbf.2.2.2.2.1, hbf.2.2.2.2.2.1,
        hbf.2.2.2.2.2.2.2.1, hbf.2.2.2.2.2.2.2.2.1, hbf.2.2.2.2.2.2.2.2.2.1,
        hbf.2.2.2.2.2.2.2.2.2.2.1, hbf.2.2.2.2.2.2.2.2.2.2.2.1,
        hbf.2.2.2.2.2.2.2.2.2.2.2.2.1, hbf.2.2.2.2.2.2.2.2.2.2.2.2.2]
    have hpres : ∀ k, alistGet? s.CONTACT_MAP_CACHE k ≠ none →
        alistGet? (insertCIConflictIgnore S2 CI).CONTACT_MAP_CACHE k ≠
          none := by
      intro k hk
      rw [hci.2.2.1]
      apply hcf.2.2.2.2.1
      rw [hS1, (userFrame_fields hbulk.1).2.2.2.2.2.2.1]
      exact hk
    have hcov : ∀ k, k ∈ U.map Prod.fst →
        alistGet? (insertCIConflictIgnore S2 CI).CONTACT_MAP_CACHE k ≠
          none := by
      intro k hk
      rw [hci.2.2.1]
      exact hcf.2.2.2.2.2 hhits k hk
    refine ⟨?_, ?_, ?_, hpres, ?_, ?_⟩
    · exact (hci.2.2.2).trans ((hcf.2.2.2.1).trans hb1)
    · intro c hc
      rw [hci.1, hcf.1]
      exact hbulk.2.1 c hc
    · intro hpos hnext
      have hb := hbulk.2.2.2 hpos hnext
      constructor
      · intro c hc
        rw [hci.1, hcf.1] at hc
        exact hb.1 c hc
      · rw [hci.2.1, hcf.2.2.1]
        exact hb.2
    · intro r hr orig hso hfm hne
      by_cases habs :
          alistGet? s.CONTACT_MAP_CACHE (senderCacheKey orig) = none
      · refine hcov _ ?_
        rw [hU]
        exact collect_covers s rows r hr orig hso hfm hne habs
      · exact hpres _ habs
    · intro hnil
      obtain ⟨u0, hu0⟩ := List.exists_mem_of_ne_nil U (by rw [hU]; exact hunk)
      exfalso
      apply hcov u0.1 (List.mem_map_of_mem Prod.fst hu0)
      rw [hnil]
      rfl

lemma commitMessages_spec (s : SyncState) (staged : List StagedMsg)
    (hce : s.MESSAGE_GUID_TO_ID_CACHE = [] → s.messages = []) :
    commitMsgFrame (commitMessages s staged) = commitMsgFrame s
    ∧ (∀ k, alistGet? s.MESSAGE_GUID_TO_ID_CACHE k ≠ none →
        alistGet? (commitMessages s staged).MESSAGE_GUID_TO_ID_CACHE k ≠
          none)
    ∧ (∀ m ∈ staged, alistGet?
        (commitMessages s staged).MESSAGE_GUID_TO_ID_CACHE m.guid ≠ none)
    ∧ ((commitMessages s staged).MESSAGE_GUID_TO_ID_CACHE = [] →
        (commitMessages s staged).messages = []) := by
  have hfold : ∀ (l : List StagedMsg) (st : SyncState),
      commitMsgFrame (l.foldl (fun st m =>
        { st with
          messages := st.messages ++
            [⟨st.nextMessageId, m.chat_id, some m.sender_id, m.content,
              m.timestamp, m.is_from_me, m.message_type, m.service_name,
              m.guid⟩],
          nextMessageId := st.nextMessageId + 1 }) st) = commitMsgFrame st
      ∧ (l.foldl (fun st m =>
          { st with
            messages := st.messages ++
              [⟨st.nextMessageId, m.chat_id, some m.sender_id, m.content,
                m.timestamp, m.is_from_me, m.message_type, m.service_name,
                m.guid⟩],
            nextMessageId := st.nextMessageId + 1 }) st).MESSAGE_GUID_TO_ID_CACHE
          = st.MESSAGE_GUID_TO_ID_CACHE
      ∧ (∀ x ∈ st.messages, x ∈ (l.foldl (fun st m =>
          { st with
            messages := st.messages ++
              [⟨st.nextMessageId, m.chat_id, some m.sender_id, m.content,
                m.timestamp, m.is_from_me, m.message_type, m.service_name,
                m.guid⟩],
            nextMessageId := st.nextMessageId + 1 }) st).messages)
      ∧ (∀ m ∈ l, ∃ x ∈ (l.foldl (fun st m =>
          { st with
            messages := st.messages ++
              [⟨st.nextMessageId, m.chat_id, some m.sender_id, m.content,
                m.timestamp, m.is_from_me, m.message_type, m.service_name,
                m.guid⟩],
            nextMessageId := st.nextMessageId + 1 }) st).messages,
          x.guid = m.guid) := by
    intro l
    induction l with
    | nil =>
      intro st
      exact ⟨rfl, rfl, fun x hx => hx,
        fun m hm => absurd hm (List.not_mem_nil m)⟩
    | cons m ms ih =>
      intro st
      rw [List.foldl_cons]
      refine ⟨(ih _).1, (ih _).2.1, ?_, ?_⟩
      · intro x hx
        exact (ih _).2.2.1 x (List.mem_append_left _ hx)
      · intro m' hm'
        rcases List.mem_cons.mp hm' with rfl | hm'
        · exact ⟨_, (ih _).2.2.1 _ (List.mem_append_right _
            (List.mem_singleton_self _)), rfl⟩
        · exact (ih _).2.2.2 m' hm'
  unfold commitMessages
  by_cases hstg : staged = []
  · rw [if_pos hstg]
    subst hstg
    exact ⟨rfl, fun k h => h, fun m hm => absurd hm (List.not_mem_nil m), hce⟩
  · rw [if_neg hstg]
    dsimp only
    have hf := hfold staged s
    have hstaged : ∀ m ∈ staged, alistGet?
        ((((staged.foldl (fun st m =>
          { st with
            messages := st.messages ++
              [⟨st.nextMessageId, m.chat_id, some m.sender_id, m.content,
                m.timestamp, m.is_from_me, m.message_type, m.service_name,
                m.guid⟩],
            nextMessageId := st.nextMessageId + 1 }) s).messages.filter
          (fun x => x.guid ∈ staged.map (fun m => m.guid))).map
          (fun x => (x.guid, x.id))).foldl
          (fun acc p => alistSet acc p.1 p.2)
          (staged.foldl (fun st m =>
            { st with
              messages := st.messages ++
                [⟨st.nextMessageId, m.chat_id, some m.sender_id, m.content,
                  m.timestamp, m.is_from_me, m.message_type, m.service_name,
                  m.guid⟩],
              nextMessageId := st.nextMessageId + 1 })
            s).MESSAGE_GUID_TO_ID_CACHE) m.guid ≠ none := by
      intro m hm
      apply alistGet?_foldl_alistSet_of_mem
      rw [List.map_map]
      obtain ⟨x, hxmem, hxg⟩ := hf.2.2.2 m hm
      refine List.mem_map.mpr ⟨x, List.mem_filter.mpr ⟨hxmem, ?_⟩, hxg⟩
      simp only [decide_eq_true_eq]
      rw [hxg]
      exact List.mem_map.mpr ⟨m, hm, rfl⟩
    refine ⟨hf.1, ?_, hstaged, ?_⟩
    · intro k hk
      apply alistGet?_foldl_alistSet_mono
      rw [hf.2.1]
      exact hk
    · intro hnil
      obtain ⟨m0, hm0⟩ := List.exists_mem_of_ne_nil staged hstg
      exfalso
      apply hstaged m0 hm0
      rw [hnil]
      rfl

lemma commitReactions_spec (s : SyncState) (staged : List ReactRow)
    (hce : s.REACTION_GUID_CACHE = [] → s.reactions = []) :
    commitReactFrame (commitReactions s staged) = commitReactFrame s
    ∧ (∀ g, g ∈ s.REACTION_GUID_CACHE →
        g ∈ (commitReactions s staged).REACTION_GUID_CACHE)
    ∧ (∀ r ∈ staged, r.guid ∈ (commitReactions s staged).REACTION_GUID_CACHE)
    ∧ ((commitReactions s staged).REACTION_GUID_CACHE = [] →
        (commitReactions s staged).reactions = []) := by
  have hfold : ∀ (l : List ReactRow) (acc : List Str),
      (∀ g ∈ acc, g ∈ l.foldl (fun acc r =>
        if r.guid ∈ acc then acc else acc ++ [r.guid]) acc)
      ∧ (∀ r ∈ l, r.guid ∈ l.foldl (fun acc r =>
          if r.guid ∈ acc then acc else acc ++ [r.guid]) acc) := by
    intro l
    induction l with
    | nil =>
      intro acc
      exact ⟨fun g hg => hg, fun r hr => absurd hr (List.not_mem_nil r)⟩
    | cons r rs ih =>
      intro acc
      rw [List.foldl_cons]
      have hmono : ∀ g ∈ acc,
          g ∈ (if r.guid ∈ acc then acc else acc ++ [r.guid]) := by
        intro g hg
        split
        · exact hg
        · exact List.mem_append_left _ hg
      refine ⟨?_, ?_⟩
      · intro g hg
        exact (ih _).1 g (hmono g hg)
      · intro r' hr'
        rcases List.mem_cons.mp hr' with rfl | hr'
        · apply (ih _).1
          split
          · next hin => exact hin
          · exact List.mem_append_right _ (List.mem_singleton_self _)
        · exact (ih _).2 r' hr'
  unfold commitReactions
  by_cases hstg : staged = []
  · rw [if_pos hstg]
    subst hstg
    exact ⟨rfl, fun g hg => hg, fun r hr => absurd hr (List.not_mem_nil r),
      hce⟩
  · rw [if_neg hstg]
    refine ⟨rfl, ?_, ?_, ?_⟩
    · intro g hg
      exact (hfold staged s.REACTION_GUID_CACHE).1 g hg
    · intro r hr
      exact (hfold staged s.REACTION_GUID_CACHE).2 r hr
    · intro hnil
      obtain ⟨r0, hr0⟩ := List.exists_mem_of_ne_nil staged hstg
      exfalso
      have hin := (hfold staged s.REACTION_GUID_CACHE).2 r0 hr0
      dsimp only at hnil
      rw [hnil] at hin
      exact absurd hin (List.not_mem_nil _)

lemma applyChatCounts_spec (s : SyncState) (counts : List (Int × Int)) :
    chatCountsFrame (applyChatCounts s counts) = chatCountsFrame s
    ∧ (s.chats = [] → (applyChatCounts s counts).chats = []) := by
  unfold applyChatCounts
  split
  · exact ⟨rfl, fun h => h⟩
  · refine ⟨rfl, ?_⟩
    intro h
    rw [h]
    rfl

/-! Run-one invariant chain: each phase of the first run preserves (or
establishes) the pieces of the postcondition the second run needs. -/

lemma phase_populate (s0 : SyncState)
    (hint : ∀ ci ∈ s0.contact_identifiers, ∃ c ∈ s0.contacts,
      c.id = ci.contact_id)
    (hcpos : ∀ c ∈ s0.contacts, 0 < c.id) (hcnext : 0 < s0.nextContactId)
    (hchpos : ∀ c ∈ s0.chats, 0 < c.id) (hchnext : 0 < s0.nextChatId) :
    CachesReady (populate_caches s0)
    ∧ (∀ c ∈ (populate_caches s0).contacts, 0 < c.id)
    ∧ 0 < (populate_caches s0).nextContactId
    ∧ ChatsWF (populate_caches s0) := by
  obtain ⟨t1, t2, t3, t4, t5, t6, t7, t8⟩ := populate_caches_tables s0
  obtain ⟨f1, f2, f3, f4⟩ := populate_caches_flags s0
  obtain ⟨e1, e2, e3, e4⟩ := populate_caches_CE s0 hint
  refine ⟨⟨f1, f2, f3, f4, e1, e2, e3, e4⟩, ?_, ?_, ?_, ?_⟩
  · intro c hc
    rw [t2] at hc
    exact hcpos c hc
  · rw [t7]
    exact hcnext
  · intro c hc
    rw [t1] at hc
    exact hchpos c hc
  · rw [t6]
    exact hchnext

lemma phase_ensure (s : SyncState) (hcr : CachesReady s)
    (hcpos : ∀ c ∈ s.contacts, 0 < c.id) (hcnext : 0 < s.nextContactId)
    (hwf : ChatsWF s) :
    CachesReady (ensure_user s).1
    ∧ UserReady (ensure_user s).1
    ∧ 0 < (ensure_user s).1.nextContactId
    ∧ ChatsWF (ensure_user s).1 := by
  obtain ⟨hfr, hmem, hisme, hposf⟩ := ensure_user_spec s
  obtain ⟨u1, u2, u3, u4, u5, u6, u7, u8, u9, u10, u11, u12, u13, u14⟩ :=
    userFrame_fields hfr
  obtain ⟨f1, f2, f3, f4, e1, e2, e3, e4⟩ := hcr
  have hp := hposf hcpos hcnext
  refine ⟨⟨?_, ?_, ?_, ?_, ?_, ?_, ?_, ?_⟩, ⟨hisme, hp.1⟩, hp.2, ?_, ?_⟩
  · rw [u11]; exact f1
  · rw [u12]; exact f2
  · rw [u13]; exact f3
  · rw [u14]; exact f4
  · intro h
    rw [u9] at h
    rw [u1]
    exact e1 h
  · intro h
    rw [u8] at h
    rw [u3]
    exact e2 h
  · intro h
    rw [u10] at h
    rw [u4]
    exact e3 h
  · intro h
    rw [u7] at h
    rw [u2]
    exact e4 h
  · intro c hc
    rw [u1] at hc
    exact hwf.1 c hc
  · rw [u5]
    exact hwf.2

lemma phase_batch (s : SyncState) (rows : List SrcRow) (hcr : CachesReady s)
    (hur : UserReady s) (hcnext : 0 < s.nextContactId) (hwf : ChatsWF s) :
    CachesReady (batchCreateContacts s rows)
    ∧ UserReady (batchCreateContacts s rows)
    ∧ ChatsWF (batchCreateContacts s rows)
    ∧ (∀ r ∈ rows, SenderKeyPresent (batchCreateContacts s rows) r) := by
  obtain ⟨f1, f2, f3, f4, e1, e2, e3, e4⟩ := hcr
  obtain ⟨hbf, hmem, hposf, hpres, hsk, hcec⟩ :=
    batchCreateContacts_spec s rows e4
  obtain ⟨b1, b2, b3, b4, b5, b6, b7, b8, b9, b10, b11, b12⟩ :=
    batchFrame_fields hbf
  obtain ⟨⟨c, hc, hme⟩, hpos⟩ := hur
  have hp := hposf hpos hcnext
  refine ⟨⟨?_, ?_, ?_, ?_, ?_, ?_, ?_, hcec⟩,
    ⟨⟨c, hmem c hc, hme⟩, hp.1⟩, ⟨?_, ?_⟩, hsk⟩
  · rw [b9]; exact f1
  · rw [b10]; exact f2
  · rw [b11]; exact f3
  · rw [b12]; exact f4
  · intro h
    rw [b7] at h
    rw [b1]
    exact e1 h
  · intro h
    rw [b6] at h
    rw [b2]
    exact e2 h
  · intro h
    rw [b8] at h
    rw [b3]
    exact e3 h
  · intro c' hc'
    rw [b1] at hc'
    exact hwf.1 c' hc'
  · rw [b4]
    exact hwf.2

lemma phase_loop (env : SyncEnv) (uid : Int) (s3 : SyncState)
    (rows : List SrcRow) (hcr : CachesReady s3) (hur : UserReady s3)
    (hwf : ChatsWF s3) (hsk : ∀ r ∈ rows, SenderKeyPresent s3 r) :
    CachesReady (rows.foldl (sync_row_step env uid) (s3, emptyStaging)).1
    ∧ UserReady (rows.foldl (sync_row_step env uid) (s3, emptyStaging)).1
    ∧ (∀ r ∈ rows, SenderKeyPresent
        (rows.foldl (sync_row_step env uid) (s3, emptyStaging)).1 r)
    ∧ (∀ r ∈ rows, StepDone env
        (rows.foldl (sync_row_step env uid) (s3, emptyStaging)).1
        (rows.foldl (sync_row_step env uid) (s3, emptyStaging)).2 r) := by
  obtain ⟨f1, f2, f3, f4, e1, e2, e3, e4⟩ := hcr
  have hfr := sync_loop_loopFrame env uid rows (s3, emptyStaging)
  obtain ⟨l1, l2, l3, l4, l5, l6, l7, l8, l9, l10, l11, l12, l13⟩ :=
    loopFrame_fields hfr
  have hcechat := sync_loop_CE_chat env uid rows (s3, emptyStaging) hwf e1
  obtain ⟨⟨c, hc, hme⟩, hpos⟩ := hur
  refine ⟨⟨?_, ?_, ?_, ?_, hcechat, ?_, ?_, ?_⟩, ⟨⟨c, ?_, hme⟩, ?_⟩, ?_,
    (sync_loop_done env uid rows (s3, emptyStaging) hwf).2⟩
  · rw [l10]; exact f1
  · rw [l11]; exact f2
  · rw [l12]; exact f3
  · rw [l13]; exact f4
  · intro h
    rw [l8] at h
    rw [l3]
    exact e2 h
  · intro h
    rw [l9] at h
    rw [l4]
    exact e3 h
  · intro h
    rw [l7] at h
    rw [l2]
    exact e4 h
  · rw [l1]
    exact hc
  · intro c' hc'
    rw [l1] at hc'
    exact hpos c' hc'
  · intro r hr orig h1 h2 h3
    rw [l7]
    exact hsk r hr orig h1 h2 h3

lemma phase_commits (env : SyncEnv) (u : SyncState) (stg : SyncStaging)
    (rows : List SrcRow) (hcr : CachesReady u) (hur : UserReady u)
    (hsk : ∀ r ∈ rows, SenderKeyPresent u r)
    (hdone : ∀ r ∈ rows, StepDone env u stg r) :
    CachesReady (applyChatCounts (commitReactions
        (commitMessages u stg.messages_to_insert) stg.reactions_to_insert)
        stg.chat_counts)
    ∧ UserReady (applyChatCounts (commitReactions
        (commitMessages u stg.messages_to_insert) stg.reactions_to_insert)
        stg.chat_counts)
    ∧ (∀ r ∈ rows, SenderKeyPresent (applyChatCounts (commitReactions
        (commitMessages u stg.messages_to_insert) stg.reactions_to_insert)
        stg.chat_counts) r)
    ∧ (∀ r ∈ rows, RowNoop env (applyChatCounts (commitReactions
        (commitMessages u stg.messages_to_insert) stg.reactions_to_insert)
        stg.chat_counts) r) := by
  obtain ⟨f1, f2, f3, f4, e1, e2, e3, e4⟩ := hcr
  set s5 := commitMessages u stg.messages_to_insert with hs5
  obtain ⟨hmf, hmmono, hmstaged, hmce⟩ :=
    commitMessages_spec u stg.messages_to_insert e2
  rw [← hs5] at hmf hmmono hmstaged hmce
  obtain ⟨m1, m2, m3, m4, m5, m6, m7, m8, m9, m10, m11, m12, m13⟩ :=
    commitMsgFrame_fields hmf
  set s6 := commitReactions s5 stg.reactions_to_insert with hs6
  have hece5 : s5.REACTION_GUID_CACHE = [] → s5.reactions = [] := by
    intro h
    rw [m9] at h
    rw [m4]
    exact e3 h
  obtain ⟨hrf, hrmono, hrstaged, hrce⟩ :=
    commitReactions_spec s5 stg.reactions_to_insert hece5
  rw [← hs6] at hrf hrmono hrstaged hrce
  obtain ⟨r1, r2, r3, r4, r5, r6, r7, r8, r9, r10, r11, r12, r13, r14⟩ :=
    commitReactFrame_fields hrf
  set s7 := applyChatCounts s6 stg.chat_counts with hs7
  obtain ⟨haf, hachats⟩ := applyChatCounts_spec s6 stg.chat_counts
  rw [← hs7] at haf hachats
  obtain ⟨a1, a2, a3, a4, a5, a6, a7, a8, a9, a10, a11, a12, a13, a14, a15⟩ :=
    chatCountsFrame_fields haf
  have hCHAT : s7.CHAT_MAP_CACHE = u.CHAT_MAP_CACHE := by
    rw [a10, r10, m8]
  have hCONTACT : s7.CONTACT_MAP_CACHE = u.CONTACT_MAP_CACHE := by
    rw [a8, r8, m7]
  have hMSG : s7.MESSAGE_GUID_TO_ID_CACHE = s5.MESSAGE_GUID_TO_ID_CACHE := by
    rw [a9, r9]
  have hREACT : s7.REACTION_GUID_CACHE = s6.REACTION_GUID_CACHE := a11
  have hCONTACTS : s7.contacts = u.contacts := by
    rw [a1, r2, m2]
  obtain ⟨⟨c, hc, hme⟩, hpos⟩ := hur
  refine ⟨⟨?_, ?_, ?_, ?_, ?_, ?_, ?_, ?_⟩, ⟨⟨c, ?_, hme⟩, ?_⟩, ?_, ?_⟩
  · rw [a12, r11, m10]; exact f1
  · rw [a13, r12, m11]; exact f2
  · rw [a14, r13, m12]; exact f3
  · rw [a15, r14, m13]; exact f4
  · intro h
    rw [hCHAT] at h
    apply hachats
    rw [r1, m1]
    exact e1 h
  · intro h
    rw [hMSG] at h
    rw [a3, r4]
    exact hmce h
  · intro h
    rw [hREACT] at h
    rw [a4]
    exact hrce h
  · intro h
    rw [hCONTACT] at h
    rw [a2, r3, m3]
    exact e4 h
  · rw [hCONTACTS]
    exact hc
  · intro c' hc'
    rw [hCONTACTS] at hc'
    exact hpos c' hc'
  · intro r hr orig h1 h2 h3
    rw [hCONTACT]
    exact hsk r hr orig h1 h2 h3
  · intro r hr
    obtain ⟨d1, d2⟩ := hdone r hr
    refine ⟨?_, ?_⟩
    · rw [hCHAT]
      exact d1
    · intro gv hg hgne htr7 hres7
      rw [hCHAT] at htr7
      have hres : senderResolvesAt u
          (transform_message (fixParticipants env r)) := by
        unfold senderResolvesAt at hres7 ⊢
        rwa [hCONTACT] at hres7
      have hfacts := d2 gv hg hgne htr7 hres
      refine ⟨?_, ?_⟩
      · intro ht
        rcases hfacts.1 ht with hin | ⟨rr, hrr, hrg⟩
        · rw [hREACT]
          apply hrmono
          rw [m9]
          exact hin
        · rw [hREACT]
          rw [← hrg]
          exact hrstaged rr hrr
      · intro ht
        rcases hfacts.2 ht with hin | ⟨m, hmm, hmg⟩
        · rw [hMSG]
          apply hmmono
          exact hin
        · rw [hMSG]
          rw [← hmg]
          exact hmstaged m hmm

lemma sync_messages_post (env : SyncEnv) (s0 : SyncState)
    (rows : List SrcRow) (hwf : SyncWF s0) (hrows : rows ≠ []) :
    CachesReady (sync_messages env s0 rows).1
    ∧ UserReady (sync_messages env s0 rows).1
    ∧ (∀ r ∈ rows, SenderKeyPresent (sync_messages env s0 rows).1 r)
    ∧ (∀ r ∈ rows, RowNoop env (sync_messages env s0 rows).1 r) := by
  obtain ⟨hchpos, hchnext, hcpos, hcnext, hint⟩ := hwf
  have h1 := phase_populate s0 hint hcpos hcnext hchpos hchnext
  have h2 := phase_ensure (populate_caches s0) h1.1 h1.2.1 h1.2.2.1 h1.2.2.2
  have h3 := phase_batch (ensure_user (populate_caches s0)).1 rows h2.1
    h2.2.1 h2.2.2.1 h2.2.2.2
  have h4 := phase_loop env (ensure_user (populate_caches s0)).2
    (batchCreateContacts (ensure_user (populate_caches s0)).1 rows) rows
    h3.1 h3.2.1 h3.2.2.1 h3.2.2.2
  have h5 := phase_commits env
    (rows.foldl (sync_row_step env (ensure_user (populate_caches s0)).2)
      (batchCreateContacts (ensure_user (populate_caches s0)).1 rows,
        emptyStaging)).1
    (rows.foldl (sync_row_step env (ensure_user (populate_caches s0)).2)
      (batchCreateContacts (ensure_user (populate_caches s0)).1 rows,
        emptyStaging)).2
    rows h4.1 h4.2.1 h4.2.2.1 h4.2.2.2
  unfold sync_messages
  rw [if_neg hrows]
  dsimp only
  exact ⟨h5.1, h5.2.1, h5.2.2.1, h5.2.2.2⟩

/-- C7: running `sync_messages` a second time over the same batch of source
rows (from any initial store whose ids are positive and whose contact
identifiers reference existing contacts) leaves the internal state exactly as
it was after the first run, and the second run returns an imported count of
zero together with an empty per-chat insert map. -/
theorem sync_messages_idempotent (env : SyncEnv) (s0 : SyncState)
    (rows : List SrcRow) (hwf : SyncWF s0) :
    sync_messages env (sync_messages env s0 rows).1 rows =
      ((sync_messages env s0 rows).1, 0, []) := by
  by_cases hrows : rows = []
  · subst hrows
    have hnil : ∀ s : SyncState, sync_messages env s [] = (s, 0, []) := by
      intro s
      unfold sync_messages
      rw [if_pos rfl]
    rw [hnil]
  · have hpost := sync_messages_post env s0 rows hwf hrows
    exact sync_messages_second_run env (sync_messages env s0 rows).1 rows
      hpost.1 hpost.2.1 hpost.2.2.1 hpost.2.2.2

/-- Witness for C7 at a concrete environment, store and batch. -/
theorem sync_messages_idempotent_witness :
    SyncWF emptySyncState ∧
      sync_messages ⟨[], 0⟩
          (sync_messages ⟨[], 0⟩ emptySyncState
            [⟨1, some ['g'], some ['h', 'i'], none, none,
              some ['i', 'M'], some 5, 1, none, none, none, none, 1,
              some ['a', '@', 'b']⟩]).1
          [⟨1, some ['g'], some ['h', 'i'], none, none,
            some ['i', 'M'], some 5, 1, none, none, none, none, 1,
            some ['a', '@', 'b']⟩] =
        ((sync_messages ⟨[], 0⟩ emptySyncState
          [⟨1, some ['g'], some ['h', 'i'], none, none,
            some ['i', 'M'], some 5, 1, none, none, none, none, 1,
            some ['a', '@', 'b']⟩]).1, 0, []) :=
  ⟨by unfold SyncWF; decide, sync_messages_idempotent ⟨[], 0⟩ emptySyncState
    [⟨1, some ['g'], some ['h', 'i'], none, none,
      some ['i', 'M'], some 5, 1, none, none, none, none, 1,
      some ['a', '@', 'b']⟩] (by unfold SyncWF; decide)⟩

end C7
